import Mathlib

/-!
Verification development for a toroidal Game-of-Life engine written in Go.

The repository has two program variants:
* `src/main.go` — the mesh variant: grid simulation plus a triangle-mesh
  builder (`UpdateTriangles`) over pre-allocated vertex/index buffers.
* `src/unnamed/part_000` — the raster variant: the same grid simulation plus
  a pixel-buffer builder (`UpdatePixels`).

The shallow embedding below translates the Go code into Lean:
* `[][]int64` grids become `List (List Int)` (cell values stay far below the
  int64 range in every reachable state, so `Int` arithmetic is exact);
* the flat vertex / index / pixel buffers become write stores
  (`Store α`): a fixed size plus the list of performed writes, most recent
  first; reading returns the most recent write at a position, or the Go
  zero value when the position was never written — exactly the observable
  behaviour of an in-place Go slice that starts out zeroed;
* Go `uint16` arithmetic on the mesh cursors is `Nat` arithmetic reduced
  mod 65536 (`u16`);
* Go loops become fuel-indexed recursions: the fuel is the loop bound read
  at loop entry (the bound fields never change during the loops);
* Go's `%` on ints is `Int.tmod` (truncated remainder, as in Go).

External engine objects (ebiten images, window, profiling, keyboard) are
not part of the modelled state: they are sinks the core writes to.
-/

/-- A write store: models an in-place Go slice of length `size` whose
elements start at the zero value.  `writes` records every performed write,
most recent first. -/
structure Store (α : Type) where
  size : Nat
  writes : List (Nat × α)
deriving DecidableEq

/-- Most recent write at position `p`, if any. -/
def lookupW {α : Type} : List (Nat × α) → Nat → Option α
  | [], _ => none
  | e :: r, p => if e.1 = p then some e.2 else lookupW r p

/-- Read position `p`; `d` is the Go zero value of the element type. -/
def Store.get {α : Type} (b : Store α) (p : Nat) (d : α) : α :=
  (lookupW b.writes p).getD d

/-- Write `v` at position `p` (models `s[p] = v`). -/
def Store.write {α : Type} (b : Store α) (p : Nat) (v : α) : Store α :=
  ⟨b.size, (p, v) :: b.writes⟩

/-- Go `uint16` reduction. -/
def u16 (n : Nat) : Nat := n % 65536

/-- `color.RGBA`. -/
structure RGBA where
  R : Nat
  G : Nat
  B : Nat
  A : Nat
deriving DecidableEq

/-- `ebiten.Vertex` (both `DstX/DstY` and the colors are float32 in Go, but
every value ever stored is a small nonnegative integer, exactly representable,
so `Nat` fields are a faithful model). -/
structure Vtx where
  DstX : Nat
  DstY : Nat
  SrcX : Nat
  SrcY : Nat
  ColorR : Nat
  ColorG : Nat
  ColorB : Nat
  ColorA : Nat
deriving DecidableEq

/-- The Go zero value `ebiten.Vertex\x7b\x7d`. -/
def Vtx.zero : Vtx := ⟨0, 0, 0, 0, 0, 0, 0, 0⟩

/-- `Grid.Data`, a `[][]int64` with `Height` rows of `Width` cells. -/
abbrev GridData := List (List Int)

/-- `Data[y][x]` for nonnegative indices (all reachable reads are in
bounds; the 0 default corresponds to the zeroed allocation). -/
def cellAt (d : GridData) (y x : Nat) : Int := (d.getD y []).getD x 0

/-- `Data[row][col]` with Go `int` indices as they appear inside
`CountNeighbors` (the wrapped indices are always nonnegative there). -/
def cellAtI (d : GridData) (row col : Int) : Int :=
  (d.getD row.toNat []).getD col.toNat 0

/-- `Data[y][x] = v`.  Writing outside the allocated rows/cells is
modelled as a no-op (Go would abort; no reachable write is out of range). -/
def setCell (d : GridData) (y x : Nat) (v : Int) : GridData :=
  d.set y ((d.getD y []).set x v)

/-- Both grids of `NewGrid` start fully dead (`make` zeroes the rows). -/
def zeroGrid (width height : Nat) : GridData :=
  List.replicate height (List.replicate width 0)

/-- The random seeding loop of `Init`: cell `(y,x)` of grid a becomes 1
exactly when the draw `rand.Intn(Density)` — supplied here as the oracle
`rnd y x` — equals 1. -/
def seedGrid (width height : Nat) (rnd : Nat → Nat → Nat) : GridData :=
  (List.range height).map fun y =>
    (List.range width).map fun x => if rnd y x = 1 then (1 : Int) else 0

/-- The loop offsets `nbgX`/`nbgY` from `-1` to `1` (`for nbg := -1; nbg < 2`). -/
def offs : List Int := [-1, 0, 1]

/-- `CountNeighbors` (identical in both source files): sum the 3×3
square around `(x, y)` with both coordinates wrapped by
`(v + offset + bound) % bound`, then subtract the cell itself. -/
def CountNb (d : GridData) (width height : Nat) (x y : Int) : Int :=
  (offs.foldl (fun sum nbgX =>
    offs.foldl (fun sum nbgY =>
      sum + cellAtI d ((y + nbgY + height).tmod height) ((x + nbgX + width).tmod width))
      sum) 0)
  - cellAtI d y x

/-- `CheckRule` (identical in both source files). -/
def CheckRule (state neighbors : Int) : Int :=
  if state = 0 ∧ neighbors = 3 then 1
  else if state = 1 ∧ (neighbors = 2 ∨ neighbors = 3) then 1
  else 0

/-- Inner `x` loop of the generation pass in `UpdateCells`: `n` iterations
left, `x` the current column; reads come from the active grid `src`, writes
go to the inactive grid `dst` (distinct objects in Go, so the reads never
see the writes). -/
def lifeCols (src : GridData) (width height y : Nat) : Nat → Nat → GridData → GridData
  | 0, _, dst => dst
  | n + 1, x, dst =>
      lifeCols src width height y n (x + 1)
        (setCell dst y x (CheckRule (cellAt src y x) (CountNb src width height x y)))

/-- Outer `y` loop of the generation pass. -/
def lifeRows (src : GridData) (width height : Nat) : Nat → Nat → GridData → GridData
  | 0, _, dst => dst
  | n + 1, y, dst => lifeRows src width height n (y + 1) (lifeCols src width height y width 0 dst)

/-- The full generation pass of `UpdateCells` (identical in both source
files): for every cell, next state into the inactive grid. -/
def lifePass (src : GridData) (width height : Nat) (dst : GridData) : GridData :=
  lifeRows src width height height 0 dst

/-- Number of alive (`= 1`) cells in row `y`, columns `x ..= x+n-1`. -/
def aliveRowCnt (d : GridData) (y x n : Nat) : Nat :=
  match n with
  | 0 => 0
  | n + 1 => (if cellAt d y x = 1 then 1 else 0) + aliveRowCnt d y (x + 1) n

/-- Number of alive cells in rows `y ..= y+n-1`, each of width `width`. -/
def aliveRowsCnt (d : GridData) (width y n : Nat) : Nat :=
  match n with
  | 0 => 0
  | n + 1 => aliveRowCnt d y 0 width + aliveRowsCnt d width (y + 1) n

/-- Number of alive cells in the whole `width × height` grid. -/
def AliveCount (d : GridData) (width height : Nat) : Nat :=
  aliveRowsCnt d width 0 height

/-- Well-formed grid data: `height` rows of `width` cells, as allocated by
`NewGrid`. -/
def GridWF (d : GridData) (width height : Nat) : Prop :=
  d.length = height ∧ ∀ r ∈ d, r.length = width

namespace Mesh

/-- The `Game` state of `src/main.go` (mesh variant).  `Grids` is the
two-element slice `[grida, gridb]`, stored as the fields `GridA`/`GridB`;
ebiten-owned objects (`Tiles`, `Cache`) are external and not modelled. -/
structure Game where
  Width : Nat
  Height : Nat
  Cellsize : Nat
  Density : Nat
  ScreenWidth : Nat
  ScreenHeight : Nat
  GridA : GridData
  GridB : GridData
  Index : Nat
  Black : RGBA
  White : RGBA
  Grey : RGBA
  Elapsed : Int
  TPG : Int
  Vertices : Store Vtx
  Indices : Store Nat
  Pause : Bool
  Debug : Bool
deriving DecidableEq

/-- `game.Grids[i]` for `i ∈ \x7b0, 1\x7d`. -/
def gridData (g : Game) (i : Nat) : GridData :=
  if i = 0 then g.GridA else g.GridB

/-- Replace `game.Grids[i].Data`. -/
def setGridData (g : Game) (i : Nat) (d : GridData) : Game :=
  if i = 0 then { g with GridA := d } else { g with GridB := d }

/-- `game.CountNeighbors(x, y)`. -/
def Game.CountNeighbors (g : Game) (x y : Int) : Int :=
  CountNb (gridData g g.Index) g.Width g.Height x y

/-- The zeroing loop of `ClearVertices`: `Vertices[i] = ebiten.Vertex\x7b\x7d`
for every `i < len(Vertices)`. -/
def clearLoop : Nat → Nat → Store Vtx → Store Vtx
  | 0, _, b => b
  | n + 1, i, b => clearLoop n (i + 1) (b.write i Vtx.zero)

/-- `ClearVertices` (the trailing `Indices = Indices[:len(Indices)]`
re-slice is an identity and changes nothing). -/
def ClearVertices (g : Game) : Game :=
  { g with Vertices := clearLoop g.Vertices.size 0 g.Vertices }

/-- The mutable locals of `UpdateTriangles` threaded through its loops:
the two buffers, the vertex write cursor `idx` (a Go `int`), and the
`uint16` cursors `index` and `base`. -/
structure TriAcc where
  V : Store Vtx
  I : Store Nat
  idx : Nat
  index : Nat
  base : Nat
deriving DecidableEq

/-- One corner vertex of an alive cell:
`x := cellx*Cellsize + i*Cellsize + 1` minus 1 when `i = 1`, same for `y`;
`SrcX = SrcY = 1`, color channels from `game.Black`, `ColorA = 1`. -/
def cornerVtx (g : Game) (cellx celly i j : Nat) : Vtx :=
  ⟨cellx * g.Cellsize + i * g.Cellsize + 1 - (if i = 1 then 1 else 0),
   celly * g.Cellsize + j * g.Cellsize + 1 - (if j = 1 then 1 else 0),
   1, 1, g.Black.R, g.Black.G, g.Black.B, 1⟩

/-- Write one corner vertex at the cursor and advance the cursor (`idx++`). -/
def writeCorner (g : Game) (cellx celly i j : Nat) (a : TriAcc) : TriAcc :=
  { a with V := a.V.write a.idx (cornerVtx g cellx celly i j), idx := a.idx + 1 }

/-- The `i`/`j` corner loops, unrolled in their source order
`(0,0), (0,1), (1,0), (1,1)`. -/
def writeCorners (g : Game) (cellx celly : Nat) (a : TriAcc) : TriAcc :=
  writeCorner g cellx celly 1 1
    (writeCorner g cellx celly 1 0
      (writeCorner g cellx celly 0 1
        (writeCorner g cellx celly 0 0 a)))

/-- The six index writes of one cell, in source order; positions and stored
values use `uint16` arithmetic. -/
def writeQuad (a : TriAcc) : TriAcc :=
  let i1 := a.I.write (u16 a.index) (u16 a.base)
  let i2 := i1.write (u16 (a.index + 1)) (u16 (a.base + 1))
  let i3 := i2.write (u16 (a.index + 2)) (u16 (a.base + 3))
  let i4 := i3.write (u16 (a.index + 3)) (u16 a.base)
  let i5 := i4.write (u16 (a.index + 4)) (u16 (a.base + 2))
  let i6 := i5.write (u16 (a.index + 5)) (u16 (a.base + 3))
  { a with I := i6 }

/-- The body of `UpdateTriangles` for one cell: corners only when the cell
is alive in the active grid, quad indices always, then
`index += 6` and `base += 4` (uint16). -/
def triCell (g : Game) (celly cellx : Nat) (a : TriAcc) : TriAcc :=
  let a := if cellAt (gridData g g.Index) celly cellx = 1 then writeCorners g cellx celly a else a
  let a := writeQuad a
  { a with index := u16 (a.index + 6), base := u16 (a.base + 4) }

/-- Inner `cellx` loop of `UpdateTriangles`. -/
def triCols (g : Game) (celly : Nat) : Nat → Nat → TriAcc → TriAcc
  | 0, _, a => a
  | n + 1, cellx, a => triCols g celly n (cellx + 1) (triCell g celly cellx a)

/-- Outer `celly` loop of `UpdateTriangles`. -/
def triRows (g : Game) : Nat → Nat → TriAcc → TriAcc
  | 0, _, a => a
  | n + 1, celly, a => triRows g n (celly + 1) (triCols g celly g.Width 0 a)

/-- `UpdateTriangles`: all cursors start at 0. -/
def UpdateTriangles (g : Game) : Game :=
  let a := triRows g g.Height 0 ⟨g.Vertices, g.Indices, 0, 0, 0⟩
  { g with Vertices := a.V, Indices := a.I }

/-- `UpdateCells` of the mesh variant: pause gate, TPG gate, then
`ClearVertices`, the generation pass into `Grids[Index^1]`,
`UpdateTriangles`, `Index ^= 1`, `Elapsed = 0` — in that source order
(the debug `Dump` only prints). -/
def UpdateCells (g : Game) : Game :=
  if g.Pause then g
  else if g.Elapsed < g.TPG then { g with Elapsed := g.Elapsed + 1 }
  else
    let next := g.Index ^^^ 1
    let g1 := ClearVertices g
    let g2 := setGridData g1 next
      (lifePass (gridData g1 g1.Index) g1.Width g1.Height (gridData g1 next))
    let g3 := UpdateTriangles g2
    { g3 with Index := g3.Index ^^^ 1, Elapsed := 0 }

/-- `Init` of the mesh variant: two fresh grids (grid a randomly seeded
through the oracle `rnd`), the three colors, and the vertex/index
allocations `lenvertices = ScreenHeight*ScreenWidth` and
`lenvertices + lenvertices/2`. -/
def Init (g : Game) (rnd : Nat → Nat → Nat) : Game :=
  let lenvertices := g.ScreenHeight * g.ScreenWidth
  { g with
    GridA := seedGrid g.Width g.Height rnd
    GridB := zeroGrid g.Width g.Height
    Grey := ⟨128, 128, 128, 255⟩
    Black := ⟨0, 0, 0, 255⟩
    White := ⟨200, 200, 200, 255⟩
    Vertices := ⟨lenvertices, []⟩
    Indices := ⟨lenvertices + lenvertices / 2, []⟩ }

end Mesh

namespace Raster

/-- The `Game` state of `src/unnamed/part_000` (raster variant); the
ebiten-owned `OffScreen` image is external and not modelled. -/
structure Game where
  Width : Nat
  Height : Nat
  Cellsize : Nat
  Density : Nat
  ScreenWidth : Nat
  ScreenHeight : Nat
  GridA : GridData
  GridB : GridData
  Index : Nat
  Elapsed : Int
  TPG : Int
  Pause : Bool
  Debug : Bool
  Profile : Bool
  Gridlines : Bool
  Pixels : Store Nat
deriving DecidableEq

/-- `game.Grids[i]` for `i ∈ \x7b0, 1\x7d`. -/
def gridData (g : Game) (i : Nat) : GridData :=
  if i = 0 then g.GridA else g.GridB

/-- Replace `game.Grids[i].Data`. -/
def setGridData (g : Game) (i : Nat) (d : GridData) : Game :=
  if i = 0 then { g with GridA := d } else { g with GridB := d }

/-- `game.CountNeighbors(x, y)`. -/
def Game.CountNeighbors (g : Game) (x y : Int) : Int :=
  CountNb (gridData g g.Index) g.Width g.Height x y

/-- The per-pixel color byte of `UpdatePixels`: `col = 0xff`, overwritten
by `0x0` when the owning cell (integer division by `Cellsize`) is alive,
then overridden to 128 on cell-boundary pixels when `Gridlines` is set. -/
def pixColor (g : Game) (x y : Nat) : Nat :=
  let gridx := x / g.Cellsize
  let gridy := y / g.Cellsize
  let col : Nat := if cellAt (gridData g g.Index) gridy gridx = 1 then 0 else 255
  if g.Gridlines ∧ (x % g.Cellsize = 0 ∨ y % g.Cellsize = 0) then 128 else col

/-- The four byte writes of one pixel at `idx = 4*(x + y*ScreenWidth)`:
three color bytes and alpha `0xff`. -/
def writePixel (g : Game) (x y : Nat) : Game :=
  let col := pixColor g x y
  let idx := 4 * (x + y * g.ScreenWidth)
  { g with Pixels :=
      (((g.Pixels.write idx col).write (idx + 1) col).write (idx + 2) col).write (idx + 3) 255 }

/-- Inner `x` loop of `UpdatePixels`. -/
def pixCols (y : Nat) : Nat → Nat → Game → Game
  | 0, _, g => g
  | n + 1, x, g => pixCols y n (x + 1) (writePixel g x y)

/-- Outer `y` loop of `UpdatePixels`. -/
def pixRows : Nat → Nat → Game → Game
  | 0, _, g => g
  | n + 1, y, g => pixRows n (y + 1) (pixCols y g.ScreenWidth 0 g)

/-- `UpdatePixels` (the final `OffScreen.WritePixels` hands the buffer to
the renderer and changes no modelled state). -/
def UpdatePixels (g : Game) : Game := pixRows g.ScreenHeight 0 g

/-- `UpdateCells` of the raster variant: pause gate, TPG gate, generation
pass into `Grids[Index^1]`, then `Index ^= 1`, `Elapsed = 0`, and only
then `UpdatePixels` — in that source order. -/
def UpdateCells (g : Game) : Game :=
  if g.Pause then g
  else if g.Elapsed < g.TPG then { g with Elapsed := g.Elapsed + 1 }
  else
    let next := g.Index ^^^ 1
    let g1 := setGridData g next
      (lifePass (gridData g g.Index) g.Width g.Height (gridData g next))
    let g2 := { g1 with Index := g1.Index ^^^ 1, Elapsed := 0 }
    UpdatePixels g2

/-- `Init` of the raster variant: two fresh grids (grid a seeded through
the oracle `rnd`) and the pixel allocation
`make([]byte, ScreenWidth*ScreenHeight*4)`. -/
def Init (g : Game) (rnd : Nat → Nat → Nat) : Game :=
  { g with
    GridA := seedGrid g.Width g.Height rnd
    GridB := zeroGrid g.Width g.Height
    Pixels := ⟨g.ScreenWidth * g.ScreenHeight * 4, []⟩ }

end Raster

/-! ## Basic lemmas about write stores and grid cells -/

theorem Store.size_write {α : Type} (b : Store α) (p : Nat) (v : α) :
    (b.write p v).size = b.size := rfl

theorem Store.get_write_self {α : Type} (b : Store α) (p : Nat) (v d : α) :
    (b.write p v).get p d = v := by
  simp [Store.get, Store.write, lookupW]

theorem Store.get_write_ne {α : Type} (b : Store α) (p q : Nat) (v d : α) (h : q ≠ p) :
    (b.write p v).get q d = b.get q d := by
  simp only [Store.get, Store.write, lookupW]
  rw [if_neg (by intro h2; exact h h2.symm)]

theorem lookupW_eq_none {α : Type} (L : List (Nat × α)) (p : Nat)
    (h : ∀ e ∈ L, e.1 ≠ p) : lookupW L p = none := by
  induction L with
  | nil => rfl
  | cons e r ih =>
      simp only [lookupW]
      rw [if_neg (h e (by simp))]
      exact ih fun e2 he2 => h e2 (by simp [he2])

theorem lookupW_append {α : Type} (L M : List (Nat × α)) (p : Nat)
    (h : lookupW L p = none) : lookupW (L ++ M) p = lookupW M p := by
  induction L with
  | nil => rfl
  | cons e r ih =>
      simp only [lookupW, List.cons_append] at h ⊢
      by_cases he : e.1 = p
      · simp [he] at h
      · rw [if_neg he] at h ⊢
        exact ih h

theorem getD_set {α : Type} (l : List α) (i j : Nat) (a d : α) :
    (l.set i a).getD j d = if i = j ∧ j < l.length then a else l.getD j d := by
  induction l generalizing i j with
  | nil => simp [List.set]
  | cons x t ih =>
      cases i with
      | zero =>
          cases j with
          | zero => simp
          | succ j => simp
      | succ i =>
          cases j with
          | zero => simp
          | succ j =>
              simp only [List.set, List.getD_cons_succ, List.length_cons, ih]
              by_cases h : i = j ∧ j < t.length
              · rw [if_pos h, if_pos ⟨by omega, by omega⟩]
              · rw [if_neg h, if_neg (by omega)]

theorem cellAt_setCell (d : GridData) (y x Y X : Nat) (v : Int) :
    cellAt (setCell d y x v) Y X =
      if y = Y ∧ x = X ∧ y < d.length ∧ x < (d.getD y []).length then v
      else cellAt d Y X := by
  unfold cellAt setCell
  rw [getD_set]
  by_cases hy : y = Y ∧ Y < d.length
  · obtain ⟨rfl, hylt⟩ := hy
    rw [if_pos ⟨rfl, hylt⟩, getD_set]
    by_cases hx : x = X ∧ X < (d.getD y []).length
    · rw [if_pos hx, if_pos ⟨rfl, hx.1, hylt, hx.1 ▸ hx.2⟩]
    · rw [if_neg hx, if_neg (by
        rintro ⟨-, rfl, -, hlt⟩
        exact hx ⟨rfl, hlt⟩)]
  · rw [if_neg hy, if_neg (by
      rintro ⟨rfl, -, hlt, -⟩
      exact hy ⟨rfl, hlt⟩)]

theorem gridWF_row_len {d : GridData} {w h : Nat} (hwf : GridWF d w h)
    (y : Nat) (hy : y < h) : (d.getD y []).length = w := by
  apply hwf.2
  have hlen : y < d.length := by rw [hwf.1]; exact hy
  rw [List.getD_eq_getElem _ _ hlen]
  exact List.getElem_mem hlen

theorem gridWF_setCell {d : GridData} {w h : Nat} (hwf : GridWF d w h)
    (y x : Nat) (v : Int) : GridWF (setCell d y x v) w h := by
  by_cases hy : y < d.length
  · refine ⟨by simp [setCell, hwf.1], ?_⟩
    intro r hr
    rcases List.mem_or_eq_of_mem_set hr with hmem | rfl
    · exact hwf.2 r hmem
    · rw [List.length_set]
      exact hwf.2 _ (by rw [List.getD_eq_getElem _ _ hy]; exact List.getElem_mem hy)
  · unfold setCell
    rw [List.set_eq_of_length_le (by omega)]
    exact hwf

/-! ## The wrapped neighbor indices of CountNeighbors -/

theorem cellAtI_natCast (d : GridData) (y x : Nat) : cellAtI d y x = cellAt d y x := by
  simp [cellAtI, cellAt]

theorem tmod_wrap_neg (a b : Nat) (hb : 0 < b) :
    (((a : Int) + -1 + b).tmod b).toNat = (a + b - 1) % b := by
  have h1 : (a : Int) + -1 + b = ((a + b - 1 : Nat) : Int) := by omega
  rw [h1, Int.tmod_eq_emod (Int.natCast_nonneg _) (Int.natCast_nonneg _), ← Int.natCast_mod,
      Int.toNat_natCast]

theorem tmod_wrap_zero (a b : Nat) (ha : a < b) :
    (((a : Int) + 0 + b).tmod b).toNat = a := by
  have h1 : (a : Int) + 0 + b = ((a + b : Nat) : Int) := by omega
  rw [h1, Int.tmod_eq_emod (Int.natCast_nonneg _) (Int.natCast_nonneg _), ← Int.natCast_mod,
      Int.toNat_natCast, Nat.add_mod_right]
  exact Nat.mod_eq_of_lt ha

theorem tmod_wrap_pos (a b : Nat) (hb : 0 < b) :
    (((a : Int) + 1 + b).tmod b).toNat = (a + 1) % b := by
  have h1 : (a : Int) + 1 + b = ((a + 1 + b : Nat) : Int) := by omega
  rw [h1, Int.tmod_eq_emod (Int.natCast_nonneg _) (Int.natCast_nonneg _), ← Int.natCast_mod,
      Int.toNat_natCast, Nat.add_mod_right]

/-- `CountNeighbors` computes exactly the sum of the eight wrapped
neighbor values (the ninth, central term of its 3×3 loop cancels against
the final self subtraction). -/
theorem countNb_eight (d : GridData) (w h x y : Nat) (hx : x < w) (hy : y < h) :
    CountNb d w h x y =
      cellAt d ((y + h - 1) % h) ((x + w - 1) % w)
      + cellAt d y ((x + w - 1) % w)
      + cellAt d ((y + 1) % h) ((x + w - 1) % w)
      + cellAt d ((y + h - 1) % h) x
      + cellAt d ((y + 1) % h) x
      + cellAt d ((y + h - 1) % h) ((x + 1) % w)
      + cellAt d y ((x + 1) % w)
      + cellAt d ((y + 1) % h) ((x + 1) % w) := by
  have hw : 0 < w := by omega
  have hh : 0 < h := by omega
  simp only [CountNb, offs, List.foldl_cons, List.foldl_nil, cellAtI]
  rw [tmod_wrap_neg x w hw, tmod_wrap_zero x w hx, tmod_wrap_pos x w hw,
      tmod_wrap_neg y h hh, tmod_wrap_zero y h hy, tmod_wrap_pos y h hh]
  simp only [Int.toNat_natCast]
  unfold cellAt
  ring

/-! ## The generation pass writes CheckRule of the active grid pointwise -/

/-- The value the generation pass computes for cell `(y, x)`. -/
def nextVal (src : GridData) (w h y x : Nat) : Int :=
  CheckRule (cellAt src y x) (CountNb src w h x y)

theorem lifeCols_wf {src dst : GridData} {w h : Nat} (y : Nat) (hwf : GridWF dst w h) :
    ∀ n x, GridWF (lifeCols src w h y n x dst) w h := by
  intro n
  induction n generalizing dst with
  | zero => intro x; exact hwf
  | succ n ih =>
      intro x
      exact ih (gridWF_setCell hwf y x _) (x + 1)

theorem lifeCols_get {src : GridData} {w h : Nat} (y : Nat) :
    ∀ (n x : Nat) (dst : GridData), GridWF dst w h →
    ∀ Y X, cellAt (lifeCols src w h y n x dst) Y X =
      if Y = y ∧ y < h ∧ x ≤ X ∧ X < x + n ∧ X < w then nextVal src w h y X
      else cellAt dst Y X := by
  intro n
  induction n with
  | zero =>
      intro x dst hwf Y X
      rw [if_neg (by omega)]
      rfl
  | succ n ih =>
      intro x dst hwf Y X
      have hwf2 : GridWF (setCell dst y x (nextVal src w h y x)) w h :=
        gridWF_setCell hwf y x _
      have hfold : cellAt (lifeCols src w h y (n + 1) x dst) Y X
          = cellAt (lifeCols src w h y n (x + 1) (setCell dst y x (nextVal src w h y x))) Y X := rfl
      rw [hfold, ih (x + 1) _ hwf2 Y X, cellAt_setCell]
      by_cases hcur : Y = y ∧ y < h ∧ x + 1 ≤ X ∧ X < x + 1 + n ∧ X < w
      · rw [if_pos hcur, if_pos (by omega)]
      · rw [if_neg hcur]
        by_cases hme : y = Y ∧ x = X ∧ y < dst.length ∧ x < (dst.getD y []).length
        · obtain ⟨rfl, rfl, hyl, hxl⟩ := hme
          have hyh : y < h := by rw [← hwf.1]; exact hyl
          have hxw : x < w := by
            have hrl := gridWF_row_len hwf y hyh
            omega
          rw [if_pos ⟨rfl, rfl, hyl, hxl⟩, if_pos (by omega)]
        · rw [if_neg hme]
          by_cases htot : Y = y ∧ y < h ∧ x ≤ X ∧ X < x + (n + 1) ∧ X < w
          · obtain ⟨rfl, hyh, hxle, hlt, hXw⟩ := htot
            have hX : x = X := by omega
            subst hX
            exfalso
            apply hme
            refine ⟨rfl, rfl, by rw [hwf.1]; exact hyh, ?_⟩
            rw [gridWF_row_len hwf Y hyh]
            exact hXw
          · rw [if_neg htot]

theorem lifeRows_wf {src dst : GridData} {w h : Nat} (hwf : GridWF dst w h) :
    ∀ n y, GridWF (lifeRows src w h n y dst) w h := by
  intro n
  induction n generalizing dst with
  | zero => intro y; exact hwf
  | succ n ih =>
      intro y
      exact ih (lifeCols_wf y hwf w 0) (y + 1)

theorem lifeRows_get {src : GridData} {w h : Nat} :
    ∀ (n y : Nat) (dst : GridData), GridWF dst w h →
    ∀ Y X, cellAt (lifeRows src w h n y dst) Y X =
      if y ≤ Y ∧ Y < y + n ∧ Y < h ∧ X < w then nextVal src w h Y X
      else cellAt dst Y X := by
  intro n
  induction n with
  | zero =>
      intro y dst hwf Y X
      rw [if_neg (by omega)]
      rfl
  | succ n ih =>
      intro y dst hwf Y X
      have hwf2 : GridWF (lifeCols src w h y w 0 dst) w h := lifeCols_wf y hwf w 0
      show cellAt (lifeRows src w h n (y + 1) _) Y X = _
      rw [ih (y + 1) _ hwf2 Y X, lifeCols_get y w 0 dst hwf Y X]
      by_cases hrest : y + 1 ≤ Y ∧ Y < y + 1 + n ∧ Y < h ∧ X < w
      · rw [if_pos hrest, if_pos (by omega)]
      · rw [if_neg hrest]
        by_cases hrow : Y = y ∧ y < h ∧ 0 ≤ X ∧ X < 0 + w ∧ X < w
        · obtain ⟨rfl, hyh, -, -, hXw⟩ := hrow
          rw [if_pos (by omega), if_pos (by omega)]
        · rw [if_neg hrow, if_neg (by omega)]

/-- The full generation pass: every in-range cell of the destination grid
receives `CheckRule` of that cell's pre-pass state and live-neighbor count,
both read from the source grid. -/
theorem lifePass_get {src dst : GridData} {w h : Nat} (hwf : GridWF dst w h)
    (Y X : Nat) (hY : Y < h) (hX : X < w) :
    cellAt (lifePass src w h dst) Y X = nextVal src w h Y X := by
  unfold lifePass
  rw [lifeRows_get h 0 dst hwf Y X, if_pos (by omega)]

theorem lifePass_wf {src dst : GridData} {w h : Nat} (hwf : GridWF dst w h) :
    GridWF (lifePass src w h dst) w h :=
  lifeRows_wf hwf h 0

/-! ## Stability of the per-frame functions on non-target fields -/

theorem Mesh.setGridData_Index (g : Mesh.Game) (i : Nat) (d : GridData) :
    (Mesh.setGridData g i d).Index = g.Index := by
  unfold Mesh.setGridData
  split <;> rfl

theorem Mesh.gridData_set_self (g : Mesh.Game) (i : Nat) (d : GridData)
    (hi : i = 0 ∨ i = 1) : Mesh.gridData (Mesh.setGridData g i d) i = d := by
  rcases hi with rfl | rfl <;> rfl

theorem Mesh.gridData_set_xor (g : Mesh.Game) (i : Nat) (d : GridData)
    (hi : i = 0 ∨ i = 1) : Mesh.gridData (Mesh.setGridData g (i ^^^ 1) d) i = Mesh.gridData g i := by
  rcases hi with rfl | rfl <;> rfl

theorem Raster.rSetGridData_Index (g : Raster.Game) (i : Nat) (d : GridData) :
    (Raster.setGridData g i d).Index = g.Index := by
  unfold Raster.setGridData
  split <;> rfl

theorem Raster.rGridData_set_self (g : Raster.Game) (i : Nat) (d : GridData)
    (hi : i = 0 ∨ i = 1) : Raster.gridData (Raster.setGridData g i d) i = d := by
  rcases hi with rfl | rfl <;> rfl

theorem Raster.rGridData_set_xor (g : Raster.Game) (i : Nat) (d : GridData)
    (hi : i = 0 ∨ i = 1) :
    Raster.gridData (Raster.setGridData g (i ^^^ 1) d) i = Raster.gridData g i := by
  rcases hi with rfl | rfl <;> rfl

/-- `UpdatePixels` only rewrites the pixel buffer. -/
theorem Raster.pixCols_shape (y : Nat) :
    ∀ (n x : Nat) (g : Raster.Game), ∃ b, Raster.pixCols y n x g = { g with Pixels := b } := by
  intro n
  induction n with
  | zero => intro x g; exact ⟨g.Pixels, rfl⟩
  | succ n ih =>
      intro x g
      obtain ⟨b, hb⟩ := ih (x + 1) (Raster.writePixel g x y)
      exact ⟨b, by rw [Raster.pixCols, hb]; rfl⟩

theorem Raster.pixRows_shape :
    ∀ (n y : Nat) (g : Raster.Game), ∃ b, Raster.pixRows n y g = { g with Pixels := b } := by
  intro n
  induction n with
  | zero => intro y g; exact ⟨g.Pixels, rfl⟩
  | succ n ih =>
      intro y g
      obtain ⟨b1, hb1⟩ := Raster.pixCols_shape y g.ScreenWidth 0 g
      obtain ⟨b2, hb2⟩ := ih (y + 1) (Raster.pixCols y g.ScreenWidth 0 g)
      refine ⟨b2, ?_⟩
      rw [Raster.pixRows, hb2, hb1]

theorem Raster.UpdatePixels_shape (g : Raster.Game) :
    ∃ b, Raster.UpdatePixels g = { g with Pixels := b } :=
  Raster.pixRows_shape g.ScreenHeight 0 g

/-! ## C1: a generation advances iff not paused and Elapsed has reached TPG -/

theorem xor_mem01 {i : Nat} (hi : i = 0 ∨ i = 1) : i ^^^ 1 = 0 ∨ i ^^^ 1 = 1 := by
  rcases hi with rfl | rfl
  · exact Or.inr rfl
  · exact Or.inl rfl

/-- Advancing `UpdateCells` in the mesh variant: the conclusions of C1,
phrased on the reduced update chain. -/
theorem Mesh.updateCells_advance (g : Mesh.Game)
    (hIdx : g.Index = 0 ∨ g.Index = 1)
    (hA : GridWF g.GridA g.Width g.Height) (hB : GridWF g.GridB g.Width g.Height)
    (hp : g.Pause = false) (he : g.TPG ≤ g.Elapsed) :
    (Mesh.UpdateCells g).Index = g.Index ^^^ 1 ∧
    (Mesh.UpdateCells g).Elapsed = 0 ∧
    Mesh.gridData (Mesh.UpdateCells g) g.Index = Mesh.gridData g g.Index ∧
    ∀ Y X, Y < g.Height → X < g.Width →
      cellAt (Mesh.gridData (Mesh.UpdateCells g) (g.Index ^^^ 1)) Y X =
        CheckRule (cellAt (Mesh.gridData g g.Index) Y X) (g.CountNeighbors X Y) := by
  have hwfact : GridWF (Mesh.gridData g g.Index) g.Width g.Height := by
    rcases hIdx with h0 | h1
    · rw [h0]; exact hA
    · rw [h1]; exact hB
  have hwfnext : GridWF (Mesh.gridData g (g.Index ^^^ 1)) g.Width g.Height := by
    rcases hIdx with h0 | h1
    · rw [h0]; exact hB
    · rw [h1]; exact hA
  have hred : Mesh.UpdateCells g =
      { Mesh.UpdateTriangles
          (Mesh.setGridData (Mesh.ClearVertices g) (g.Index ^^^ 1)
            (lifePass (Mesh.gridData g g.Index) g.Width g.Height
              (Mesh.gridData g (g.Index ^^^ 1)))) with
        Index := g.Index ^^^ 1, Elapsed := 0 } := by
    unfold Mesh.UpdateCells
    rw [hp]
    rw [if_neg (by simp), if_neg (by omega)]
    have hIx : (Mesh.setGridData (Mesh.ClearVertices g) (g.Index ^^^ 1)
        (lifePass (Mesh.gridData g g.Index) g.Width g.Height
          (Mesh.gridData g (g.Index ^^^ 1)))).Index = g.Index :=
      Mesh.setGridData_Index _ _ _
    have key : ∀ (gg : Mesh.Game) (i : Nat), gg.Index = i →
        ({ gg with Index := gg.Index ^^^ 1, Elapsed := 0 } : Mesh.Game)
          = { gg with Index := i ^^^ 1, Elapsed := 0 } := by
      intro gg i h
      rw [h]
    exact key _ _ hIx
  rw [hred]
  set D : GridData := lifePass (Mesh.gridData g g.Index) g.Width g.Height
      (Mesh.gridData g (g.Index ^^^ 1)) with hD
  have hgd : ∀ i, Mesh.gridData
      { Mesh.UpdateTriangles (Mesh.setGridData (Mesh.ClearVertices g) (g.Index ^^^ 1) D) with
        Index := g.Index ^^^ 1, Elapsed := 0 } i
      = Mesh.gridData (Mesh.setGridData (Mesh.ClearVertices g) (g.Index ^^^ 1) D) i := by
    intro i
    unfold Mesh.gridData
    rfl
  have hclr : ∀ i, Mesh.gridData (Mesh.ClearVertices g) i = Mesh.gridData g i := by
    intro i
    unfold Mesh.gridData
    rfl
  refine ⟨rfl, rfl, ?_, ?_⟩
  · rw [hgd]
    have hx : Mesh.gridData (Mesh.setGridData (Mesh.ClearVertices g) (g.Index ^^^ 1) D) g.Index
        = Mesh.gridData (Mesh.ClearVertices g) g.Index := by
      have h1 : (Mesh.ClearVertices g).Index = g.Index := rfl
      exact Mesh.gridData_set_xor (Mesh.ClearVertices g) g.Index D hIdx
    rw [hx, hclr]
  · intro Y X hY hX
    rw [hgd]
    rw [Mesh.gridData_set_self (Mesh.ClearVertices g) (g.Index ^^^ 1) D (xor_mem01 hIdx)]
    rw [hD]
    rw [lifePass_get hwfnext Y X hY hX]
    rfl

/-- Advancing `UpdateCells` in the raster variant. -/
theorem Raster.rUpdateCells_advance (g : Raster.Game)
    (hIdx : g.Index = 0 ∨ g.Index = 1)
    (hA : GridWF g.GridA g.Width g.Height) (hB : GridWF g.GridB g.Width g.Height)
    (hp : g.Pause = false) (he : g.TPG ≤ g.Elapsed) :
    (Raster.UpdateCells g).Index = g.Index ^^^ 1 ∧
    (Raster.UpdateCells g).Elapsed = 0 ∧
    Raster.gridData (Raster.UpdateCells g) g.Index = Raster.gridData g g.Index ∧
    ∀ Y X, Y < g.Height → X < g.Width →
      cellAt (Raster.gridData (Raster.UpdateCells g) (g.Index ^^^ 1)) Y X =
        CheckRule (cellAt (Raster.gridData g g.Index) Y X) (g.CountNeighbors X Y) := by
  have hwfnext : GridWF (Raster.gridData g (g.Index ^^^ 1)) g.Width g.Height := by
    rcases hIdx with h0 | h1
    · rw [h0]; exact hB
    · rw [h1]; exact hA
  have hIx : (Raster.setGridData g (g.Index ^^^ 1)
      (lifePass (Raster.gridData g g.Index) g.Width g.Height
        (Raster.gridData g (g.Index ^^^ 1)))).Index = g.Index :=
    Raster.rSetGridData_Index _ _ _
  have hred : Raster.UpdateCells g =
      Raster.UpdatePixels
        { Raster.setGridData g (g.Index ^^^ 1)
            (lifePass (Raster.gridData g g.Index) g.Width g.Height
              (Raster.gridData g (g.Index ^^^ 1))) with
          Index := g.Index ^^^ 1, Elapsed := 0 } := by
    unfold Raster.UpdateCells
    rw [hp]
    rw [if_neg (by simp), if_neg (by omega)]
    have key : ∀ (gg : Raster.Game) (i : Nat), gg.Index = i →
        Raster.UpdatePixels ({ gg with Index := gg.Index ^^^ 1, Elapsed := 0 } : Raster.Game)
          = Raster.UpdatePixels { gg with Index := i ^^^ 1, Elapsed := 0 } := by
      intro gg i h
      rw [h]
    exact key _ _ hIx
  set mid : Raster.Game :=
    { Raster.setGridData g (g.Index ^^^ 1)
        (lifePass (Raster.gridData g g.Index) g.Width g.Height
          (Raster.gridData g (g.Index ^^^ 1))) with
      Index := g.Index ^^^ 1, Elapsed := 0 } with hmid
  obtain ⟨b, hb⟩ := Raster.UpdatePixels_shape mid
  have hgd : ∀ i, Raster.gridData (Raster.UpdateCells g) i = Raster.gridData mid i := by
    intro i
    rw [hred, hb]
    unfold Raster.gridData
    rfl
  have hgdmid : ∀ i, Raster.gridData mid i
      = Raster.gridData (Raster.setGridData g (g.Index ^^^ 1)
          (lifePass (Raster.gridData g g.Index) g.Width g.Height
            (Raster.gridData g (g.Index ^^^ 1)))) i := by
    intro i
    unfold Raster.gridData
    rfl
  refine ⟨?_, ?_, ?_, ?_⟩
  · rw [hred, hb]
  · rw [hred, hb]
  · rw [hgd, hgdmid]
    exact Raster.rGridData_set_xor g g.Index _ hIdx
  · intro Y X hY hX
    rw [hgd, hgdmid]
    rw [Raster.rGridData_set_self g (g.Index ^^^ 1) _ (xor_mem01 hIdx)]
    rw [lifePass_get hwfnext Y X hY hX]
    rfl

theorem Mesh.updateCells_paused (g : Mesh.Game) (hp : g.Pause = true) :
    Mesh.UpdateCells g = g := by
  unfold Mesh.UpdateCells
  rw [hp]
  simp

theorem Mesh.updateCells_waiting (g : Mesh.Game) (hp : g.Pause = false)
    (he : g.Elapsed < g.TPG) :
    Mesh.UpdateCells g = { g with Elapsed := g.Elapsed + 1 } := by
  unfold Mesh.UpdateCells
  rw [hp]
  simp [he]

theorem Raster.rUpdateCells_paused (g : Raster.Game) (hp : g.Pause = true) :
    Raster.UpdateCells g = g := by
  unfold Raster.UpdateCells
  rw [hp]
  simp

theorem Raster.rUpdateCells_waiting (g : Raster.Game) (hp : g.Pause = false)
    (he : g.Elapsed < g.TPG) :
    Raster.UpdateCells g = { g with Elapsed := g.Elapsed + 1 } := by
  unfold Raster.UpdateCells
  rw [hp]
  simp [he]

/-- C1.  In both variants, when `Pause` is false and `Elapsed ≥ TPG` a
generation advances: every in-range cell of the previously inactive grid
receives `CheckRule` of the active grid's cell and its `CountNeighbors`
count, the active-buffer index flips by the parity toggle `Index ^^^ 1`
(the active grid's data is left untouched — nothing is copied), and
`Elapsed` resets to 0.  Conversely, when `Pause` is true the state is
unchanged, and when `Elapsed < TPG` only the elapsed counter ticks — no
generation advances. -/
theorem claim_C1 (gm : Mesh.Game) (gr : Raster.Game)
    (hmIdx : gm.Index = 0 ∨ gm.Index = 1) (hrIdx : gr.Index = 0 ∨ gr.Index = 1)
    (hmA : GridWF gm.GridA gm.Width gm.Height) (hmB : GridWF gm.GridB gm.Width gm.Height)
    (hrA : GridWF gr.GridA gr.Width gr.Height) (hrB : GridWF gr.GridB gr.Width gr.Height) :
    (gm.Pause = false → gm.TPG ≤ gm.Elapsed →
      (Mesh.UpdateCells gm).Index = gm.Index ^^^ 1 ∧
      (Mesh.UpdateCells gm).Elapsed = 0 ∧
      Mesh.gridData (Mesh.UpdateCells gm) gm.Index = Mesh.gridData gm gm.Index ∧
      ∀ Y X, Y < gm.Height → X < gm.Width →
        cellAt (Mesh.gridData (Mesh.UpdateCells gm) (gm.Index ^^^ 1)) Y X =
          CheckRule (cellAt (Mesh.gridData gm gm.Index) Y X) (gm.CountNeighbors X Y)) ∧
    (gr.Pause = false → gr.TPG ≤ gr.Elapsed →
      (Raster.UpdateCells gr).Index = gr.Index ^^^ 1 ∧
      (Raster.UpdateCells gr).Elapsed = 0 ∧
      Raster.gridData (Raster.UpdateCells gr) gr.Index = Raster.gridData gr gr.Index ∧
      ∀ Y X, Y < gr.Height → X < gr.Width →
        cellAt (Raster.gridData (Raster.UpdateCells gr) (gr.Index ^^^ 1)) Y X =
          CheckRule (cellAt (Raster.gridData gr gr.Index) Y X) (gr.CountNeighbors X Y)) ∧
    (gm.Pause = true → Mesh.UpdateCells gm = gm) ∧
    (gr.Pause = true → Raster.UpdateCells gr = gr) ∧
    (gm.Pause = false → gm.Elapsed < gm.TPG →
      Mesh.UpdateCells gm = { gm with Elapsed := gm.Elapsed + 1 }) ∧
    (gr.Pause = false → gr.Elapsed < gr.TPG →
      Raster.UpdateCells gr = { gr with Elapsed := gr.Elapsed + 1 }) :=
  ⟨fun hp he => Mesh.updateCells_advance gm hmIdx hmA hmB hp he,
   fun hp he => Raster.rUpdateCells_advance gr hrIdx hrA hrB hp he,
   fun hp => Mesh.updateCells_paused gm hp,
   fun hp => Raster.rUpdateCells_paused gr hp,
   fun hp he => Mesh.updateCells_waiting gm hp he,
   fun hp he => Raster.rUpdateCells_waiting gr hp he⟩

/-- A small concrete mesh game used to instantiate hypothesised theorems. -/
def wgm : Mesh.Game :=
  { Width := 2, Height := 2, Cellsize := 4, Density := 5
    ScreenWidth := 8, ScreenHeight := 8
    GridA := [[1, 1], [1, 0]], GridB := [[0, 0], [0, 0]]
    Index := 0, Black := ⟨0, 0, 0, 255⟩, White := ⟨200, 200, 200, 255⟩
    Grey := ⟨128, 128, 128, 255⟩
    Elapsed := 5, TPG := 5
    Vertices := ⟨64, []⟩, Indices := ⟨96, []⟩
    Pause := false, Debug := true }

/-- A small concrete raster game used to instantiate hypothesised theorems. -/
def wgr : Raster.Game :=
  { Width := 2, Height := 2, Cellsize := 2, Density := 8
    ScreenWidth := 4, ScreenHeight := 4
    GridA := [[1, 0], [0, 1]], GridB := [[0, 0], [0, 0]]
    Index := 0, Elapsed := 10, TPG := 10
    Pause := false, Debug := false, Profile := false, Gridlines := true
    Pixels := ⟨64, []⟩ }

theorem claim_C1_witness :
    (Mesh.UpdateCells wgm).Index = 1 ∧ (Mesh.UpdateCells wgm).Elapsed = 0 ∧
    (Raster.UpdateCells wgr).Index = 1 ∧
    cellAt (Mesh.gridData (Mesh.UpdateCells wgm) 1) 0 0 =
      CheckRule (cellAt (Mesh.gridData wgm 0) 0 0) (wgm.CountNeighbors 0 0) := by
  have h := claim_C1 wgm wgr (Or.inl rfl) (Or.inl rfl)
    ⟨rfl, by decide⟩ ⟨rfl, by decide⟩ ⟨rfl, by decide⟩ ⟨rfl, by decide⟩
  have hm := h.1 rfl (by decide)
  have hr := h.2.1 rfl (by decide)
  exact ⟨hm.1, hm.2.1, hr.1, hm.2.2.2 0 0 (by decide) (by decide)⟩

/-! ## C2: the rule table of CheckRule -/

/-- C2.  `CheckRule` is a pure total function; for `state ∈ \x7b0,1\x7d` and any
neighbor count in `0..8` it returns 1 exactly for birth (`state = 0`,
`neighbors = 3`) and survival (`state = 1`, `neighbors ∈ \x7b2,3\x7d`), and 0
for every other combination. -/
theorem claim_C2 (state neighbors : Int) (hs : state = 0 ∨ state = 1)
    (h0 : 0 ≤ neighbors) (h8 : neighbors ≤ 8) :
    CheckRule state neighbors =
      if (state = 0 ∧ neighbors = 3) ∨ (state = 1 ∧ (neighbors = 2 ∨ neighbors = 3))
      then 1 else 0 := by
  rcases hs with rfl | rfl <;>
    · unfold CheckRule
      split_ifs <;> first | rfl | tauto

theorem claim_C2_witness :
    ((0 : Int) = 0 ∨ (0 : Int) = 1) ∧ (0 : Int) ≤ 3 ∧ (3 : Int) ≤ 8 ∧
    CheckRule 0 3 =
      (if ((0 : Int) = 0 ∧ (3 : Int) = 3) ∨ ((0 : Int) = 1 ∧ ((3 : Int) = 2 ∨ (3 : Int) = 3))
       then 1 else 0) :=
  ⟨Or.inl rfl, by decide, by decide, claim_C2 0 3 (Or.inl rfl) (by decide) (by decide)⟩

/-! ## C3: CountNeighbors is the toroidal eight-neighbor sum -/

/-- C3.  For every in-range cell, `CountNeighbors` returns the sum of the
eight toroidally adjacent cell values of the active data (the 3×3 loop sum
minus the cell itself), with both coordinates wrapped modulo the grid
dimensions; in particular the neighbor count of cell `(0,0)` includes cell
`(W-1, H-1)` as its upper-left diagonal neighbor. -/
theorem claim_C3 (d : GridData) (w h x y : Nat) (hx : x < w) (hy : y < h) :
    (CountNb d w h x y =
      cellAt d ((y + h - 1) % h) ((x + w - 1) % w)
      + cellAt d y ((x + w - 1) % w)
      + cellAt d ((y + 1) % h) ((x + w - 1) % w)
      + cellAt d ((y + h - 1) % h) x
      + cellAt d ((y + 1) % h) x
      + cellAt d ((y + h - 1) % h) ((x + 1) % w)
      + cellAt d y ((x + 1) % w)
      + cellAt d ((y + 1) % h) ((x + 1) % w)) ∧
    (CountNb d w h 0 0 =
      cellAt d (h - 1) (w - 1)
      + cellAt d 0 (w - 1)
      + cellAt d (1 % h) (w - 1)
      + cellAt d (h - 1) 0
      + cellAt d (1 % h) 0
      + cellAt d (h - 1) (1 % w)
      + cellAt d 0 (1 % w)
      + cellAt d (1 % h) (1 % w)) := by
  constructor
  · exact countNb_eight d w h x y hx hy
  · have hw : 0 < w := by omega
    have hh : 0 < h := by omega
    have h8 := countNb_eight d w h 0 0 hw hh
    simp only [Nat.cast_zero, Nat.zero_add] at h8
    rw [h8, Nat.mod_eq_of_lt (show w - 1 < w by omega),
        Nat.mod_eq_of_lt (show h - 1 < h by omega)]

theorem claim_C3_witness :
    (0 : Nat) < 3 ∧
    CountNb [[0, 0, 0], [0, 0, 0], [0, 0, 1]] 3 3 0 0 = 1 := by
  have h := (claim_C3 [[0, 0, 0], [0, 0, 0], [0, 0, 1]] 3 3 0 0
    (by decide) (by decide)).2
  refine ⟨by decide, ?_⟩
  rw [h]
  decide

/-! ## C7: paused frames are a complete no-op -/

/-- C7.  While `Pause` is true, `UpdateCells` leaves the game state —
both grids, the active index, the elapsed counter, and the mesh
vertex/index buffers respectively the raster pixel buffer — entirely
unchanged, for any number of consecutive frames. -/
theorem claim_C7 (gm : Mesh.Game) (gr : Raster.Game)
    (hm : gm.Pause = true) (hr : gr.Pause = true) (n : Nat) :
    Mesh.UpdateCells^[n] gm = gm ∧ Raster.UpdateCells^[n] gr = gr := by
  constructor
  · exact Function.iterate_fixed (by
      unfold Mesh.UpdateCells
      rw [hm]
      simp) n
  · exact Function.iterate_fixed (by
      unfold Raster.UpdateCells
      rw [hr]
      simp) n

theorem claim_C7_witness :
    Mesh.UpdateCells^[3] { wgm with Pause := true } = { wgm with Pause := true } ∧
    Raster.UpdateCells^[3] { wgr with Pause := true } = { wgr with Pause := true } :=
  claim_C7 { wgm with Pause := true } { wgr with Pause := true } rfl rfl 3

/-! ## C5: buffer sizing performed by Init -/

/-- The game value constructed in `main()` of the mesh variant, just
before `Init` runs: `size = 200`, `Cellsize = 4`, `Density = 5`,
`TPG = 5`, `Debug = true`, and `ScreenWidth/ScreenHeight = size * Cellsize`;
all remaining fields are Go zero values. -/
def shippedMeshCfg : Mesh.Game :=
  { Width := 200, Height := 200, Cellsize := 4, Density := 5
    ScreenWidth := 800, ScreenHeight := 800
    GridA := [], GridB := []
    Index := 0, Black := ⟨0, 0, 0, 0⟩, White := ⟨0, 0, 0, 0⟩, Grey := ⟨0, 0, 0, 0⟩
    Elapsed := 0, TPG := 5
    Vertices := ⟨0, []⟩, Indices := ⟨0, []⟩
    Pause := false, Debug := true }

/-- The game value constructed in `main()` of the raster variant, just
before `Init` runs: `size = 500`, `Cellsize = 4`, `Density = 8`,
`TPG = 10`, and `ScreenWidth/ScreenHeight = size * Cellsize`. -/
def shippedRasterCfg : Raster.Game :=
  { Width := 500, Height := 500, Cellsize := 4, Density := 8
    ScreenWidth := 2000, ScreenHeight := 2000
    GridA := [], GridB := []
    Index := 0, Elapsed := 0, TPG := 10
    Pause := false, Debug := false, Profile := false, Gridlines := false
    Pixels := ⟨0, []⟩ }

/-- C5 as stated is false for the mesh variant: under the shipped mesh
configuration (200×200 cells, `Cellsize = 4`), `Init` allocates
`ScreenHeight*ScreenWidth = 640000` vertices, not `4 * (Width*Height)
= 160000`. -/
theorem claim_C5_cex :
    (Mesh.Init shippedMeshCfg (fun _ _ => 0)).Vertices.size = 640000 ∧
    ¬ ((Mesh.Init shippedMeshCfg (fun _ _ => 0)).Vertices.size =
        4 * (shippedMeshCfg.Width * shippedMeshCfg.Height)) := by
  constructor
  · rfl
  · intro h
    simp [Mesh.Init, shippedMeshCfg] at h

/-- C5, amended.  `Init` of the mesh variant sizes the vertex buffer as
`ScreenHeight * ScreenWidth` — that is `Cellsize² × (Width × Height)`
when the screen is `Width*Cellsize` by `Height*Cellsize` — and the index
buffer as that count plus half again; these equal `4 × cells` and
`6 × cells` only when `Cellsize = 2` (the shipped mesh configuration uses
`Cellsize = 4`, giving 16 and 24 per cell).  The raster variant's pixel
buffer is always exactly `4 × ScreenWidth × ScreenHeight` bytes, as
claimed. -/
theorem claim_C5_amended (gm : Mesh.Game) (gr : Raster.Game) (rnd : Nat → Nat → Nat)
    (hW : gm.ScreenWidth = gm.Width * gm.Cellsize)
    (hH : gm.ScreenHeight = gm.Height * gm.Cellsize) :
    (Mesh.Init gm rnd).Vertices.size = gm.Cellsize * gm.Cellsize * (gm.Width * gm.Height) ∧
    (Mesh.Init gm rnd).Indices.size =
      (Mesh.Init gm rnd).Vertices.size + (Mesh.Init gm rnd).Vertices.size / 2 ∧
    (gm.Cellsize = 2 →
      (Mesh.Init gm rnd).Vertices.size = 4 * (gm.Width * gm.Height) ∧
      (Mesh.Init gm rnd).Indices.size = 6 * (gm.Width * gm.Height)) ∧
    (Raster.Init gr rnd).Pixels.size = 4 * (gr.ScreenWidth * gr.ScreenHeight) := by
  have hv : (Mesh.Init gm rnd).Vertices.size = gm.ScreenHeight * gm.ScreenWidth := rfl
  have hi : (Mesh.Init gm rnd).Indices.size =
      gm.ScreenHeight * gm.ScreenWidth + gm.ScreenHeight * gm.ScreenWidth / 2 := rfl
  refine ⟨?_, ?_, ?_, ?_⟩
  · rw [hv, hW, hH]
    ring
  · rw [hi, hv]
  · intro h2
    constructor
    · rw [hv, hW, hH, h2]
      ring
    · rw [hi, hW, hH, h2]
      have : gm.Height * 2 * (gm.Width * 2) = 4 * (gm.Width * gm.Height) := by ring
      rw [this]
      omega
  · have : (Raster.Init gr rnd).Pixels.size
        = gr.ScreenWidth * gr.ScreenHeight * 4 := rfl
    rw [this]
    ring

theorem claim_C5_amended_witness :
    wgm.ScreenWidth = wgm.Width * wgm.Cellsize ∧
    (Mesh.Init wgm (fun _ _ => 0)).Vertices.size =
      wgm.Cellsize * wgm.Cellsize * (wgm.Width * wgm.Height) ∧
    (Raster.Init wgr (fun _ _ => 0)).Pixels.size =
      4 * (wgr.ScreenWidth * wgr.ScreenHeight) := by
  have h := claim_C5_amended wgm wgr (fun _ _ => 0) rfl rfl
  exact ⟨rfl, h.1, h.2.2.2⟩

/-! ## C4: is the rebuilt output generated from the newly active buffer? -/

/-- An advancing mesh game whose single alive cell dies this generation:
3×3 grid, center alive, `TPG = 0` so the generation advances at once. -/
def cex4 : Mesh.Game :=
  { Width := 3, Height := 3, Cellsize := 4, Density := 5
    ScreenWidth := 12, ScreenHeight := 12
    GridA := [[0, 0, 0], [0, 1, 0], [0, 0, 0]], GridB := [[0, 0, 0], [0, 0, 0], [0, 0, 0]]
    Index := 0, Black := ⟨0, 0, 0, 255⟩, White := ⟨200, 200, 200, 255⟩
    Grey := ⟨128, 128, 128, 255⟩
    Elapsed := 0, TPG := 0
    Vertices := ⟨144, []⟩, Indices := ⟨216, []⟩
    Pause := false, Debug := true }

/-- The raster game with the same grid and timing. -/
def cex4r : Raster.Game :=
  { Width := 3, Height := 3, Cellsize := 1, Density := 8
    ScreenWidth := 3, ScreenHeight := 3
    GridA := [[0, 0, 0], [0, 1, 0], [0, 0, 0]], GridB := [[0, 0, 0], [0, 0, 0], [0, 0, 0]]
    Index := 0, Elapsed := 0, TPG := 0
    Pause := false, Debug := false, Profile := false, Gridlines := false
    Pixels := ⟨36, []⟩ }

/-- C4 fails on the mesh variant: `UpdateCells` calls `UpdateTriangles`
*before* flipping `Index`, so the rebuilt mesh reflects the old
generation.  On `cex4` the newly active buffer is all dead after the
advance, yet the vertex buffer holds a live quad (a corner vertex with
`ColorA = 1` at slot 0) — built from the pre-advance buffer.  The raster
variant flips first, as the claim states: its rebuilt pixel for the
center cell shows the dead color 255. -/
theorem claim_C4 :
    Mesh.gridData (Mesh.UpdateCells cex4) (Mesh.UpdateCells cex4).Index
      = [[0, 0, 0], [0, 0, 0], [0, 0, 0]] ∧
    ((Mesh.UpdateCells cex4).Vertices.get 0 Vtx.zero).ColorA = 1 ∧
    ¬ ((Mesh.UpdateCells cex4).Vertices.get 0 Vtx.zero = Vtx.zero) ∧
    Raster.gridData (Raster.UpdateCells cex4r) (Raster.UpdateCells cex4r).Index
      = [[0, 0, 0], [0, 0, 0], [0, 0, 0]] ∧
    (Raster.UpdateCells cex4r).Pixels.get (4 * (1 + 1 * 3)) 0 = 255 := by
  decide

/-! ## Per-cell behaviour of UpdateTriangles -/

theorem u16_lt (n : Nat) : u16 n < 65536 := Nat.mod_lt _ (by omega)

theorem lookupW_cons {α : Type} (p : Nat) (v : α) (r : List (Nat × α)) (q : Nat) :
    lookupW ((p, v) :: r) q = if p = q then some v else lookupW r q := rfl

theorem Mesh.triCell_index (g : Mesh.Game) (y x : Nat) (a : Mesh.TriAcc) :
    (Mesh.triCell g y x a).index = u16 (a.index + 6) := by
  unfold Mesh.triCell
  split <;> rfl

theorem Mesh.triCell_base (g : Mesh.Game) (y x : Nat) (a : Mesh.TriAcc) :
    (Mesh.triCell g y x a).base = u16 (a.base + 4) := by
  unfold Mesh.triCell
  split <;> rfl

theorem Mesh.triCell_V_size (g : Mesh.Game) (y x : Nat) (a : Mesh.TriAcc) :
    (Mesh.triCell g y x a).V.size = a.V.size := by
  unfold Mesh.triCell
  split <;> rfl

theorem Mesh.triCell_I_size (g : Mesh.Game) (y x : Nat) (a : Mesh.TriAcc) :
    (Mesh.triCell g y x a).I.size = a.I.size := by
  unfold Mesh.triCell
  split <;> rfl

theorem Mesh.triCell_idx (g : Mesh.Game) (y x : Nat) (a : Mesh.TriAcc) :
    (Mesh.triCell g y x a).idx =
      a.idx + (if cellAt (Mesh.gridData g g.Index) y x = 1 then 4 else 0) := by
  unfold Mesh.triCell
  split <;> simp [Mesh.writeQuad, Mesh.writeCorners, Mesh.writeCorner]

theorem Mesh.triCell_I_writes (g : Mesh.Game) (y x : Nat) (a : Mesh.TriAcc) :
    (Mesh.triCell g y x a).I.writes =
      [(u16 (a.index + 5), u16 (a.base + 3)),
       (u16 (a.index + 4), u16 (a.base + 2)),
       (u16 (a.index + 3), u16 a.base),
       (u16 (a.index + 2), u16 (a.base + 3)),
       (u16 (a.index + 1), u16 (a.base + 1)),
       (u16 a.index, u16 a.base)] ++ a.I.writes := by
  unfold Mesh.triCell
  split <;> rfl

theorem Mesh.triCell_V_writes (g : Mesh.Game) (y x : Nat) (a : Mesh.TriAcc) :
    (Mesh.triCell g y x a).V.writes =
      (if cellAt (Mesh.gridData g g.Index) y x = 1 then
        [(a.idx + 3, Mesh.cornerVtx g x y 1 1),
         (a.idx + 2, Mesh.cornerVtx g x y 1 0),
         (a.idx + 1, Mesh.cornerVtx g x y 0 1),
         (a.idx, Mesh.cornerVtx g x y 0 0)]
       else []) ++ a.V.writes := by
  unfold Mesh.triCell
  split <;> simp [Mesh.writeQuad, Mesh.writeCorners, Mesh.writeCorner, Store.write]

/-- After one cell with in-range (non-wrapping) cursors `6m`/`4m`, the six
index slots `6m .. 6m+5` hold the quad pattern over base `4m`. -/
theorem Mesh.triCell_get_pattern (g : Mesh.Game) (y x : Nat) (a : Mesh.TriAcc) (m : Nat)
    (hidx : a.index = 6 * m) (hbase : a.base = 4 * m) (hlt : 6 * m + 6 ≤ 65536) (d : Nat) :
    ((Mesh.triCell g y x a).I.get (6 * m) d = 4 * m) ∧
    ((Mesh.triCell g y x a).I.get (6 * m + 1) d = 4 * m + 1) ∧
    ((Mesh.triCell g y x a).I.get (6 * m + 2) d = 4 * m + 3) ∧
    ((Mesh.triCell g y x a).I.get (6 * m + 3) d = 4 * m) ∧
    ((Mesh.triCell g y x a).I.get (6 * m + 4) d = 4 * m + 2) ∧
    ((Mesh.triCell g y x a).I.get (6 * m + 5) d = 4 * m + 3) := by
  have hw := Mesh.triCell_I_writes g y x a
  have e0 : u16 a.index = 6 * m := by unfold u16; rw [hidx]; omega
  have e1 : u16 (a.index + 1) = 6 * m + 1 := by unfold u16; rw [hidx]; omega
  have e2 : u16 (a.index + 2) = 6 * m + 2 := by unfold u16; rw [hidx]; omega
  have e3 : u16 (a.index + 3) = 6 * m + 3 := by unfold u16; rw [hidx]; omega
  have e4 : u16 (a.index + 4) = 6 * m + 4 := by unfold u16; rw [hidx]; omega
  have e5 : u16 (a.index + 5) = 6 * m + 5 := by unfold u16; rw [hidx]; omega
  have f0 : u16 a.base = 4 * m := by unfold u16; rw [hbase]; omega
  have f1 : u16 (a.base + 1) = 4 * m + 1 := by unfold u16; rw [hbase]; omega
  have f2 : u16 (a.base + 2) = 4 * m + 2 := by unfold u16; rw [hbase]; omega
  have f3 : u16 (a.base + 3) = 4 * m + 3 := by unfold u16; rw [hbase]; omega
  refine ⟨?_, ?_, ?_, ?_, ?_, ?_⟩ <;>
    · unfold Store.get
      rw [hw]
      simp only [List.cons_append, lookupW_cons, e0, e1, e2, e3, e4, e5, f0, f1, f2, f3]
      split_ifs <;> first
        | (exfalso; omega)
        | simp
        | omega

/-- A cell whose six wrapped write positions all avoid `q` leaves index
slot `q` unchanged. -/
theorem Mesh.triCell_get_other (g : Mesh.Game) (y x : Nat) (a : Mesh.TriAcc) (q d : Nat)
    (h : ∀ j, j < 6 → u16 (a.index + j) ≠ q) :
    (Mesh.triCell g y x a).I.get q d = a.I.get q d := by
  have hnone := lookupW_eq_none
    [(u16 (a.index + 5), u16 (a.base + 3)),
     (u16 (a.index + 4), u16 (a.base + 2)),
     (u16 (a.index + 3), u16 a.base),
     (u16 (a.index + 2), u16 (a.base + 3)),
     (u16 (a.index + 1), u16 (a.base + 1)),
     (u16 a.index, u16 a.base)] q (by
      intro e he
      simp only [List.mem_cons, List.not_mem_nil, or_false] at he
      rcases he with rfl | rfl | rfl | rfl | rfl | rfl
      · exact h 5 (by omega)
      · exact h 4 (by omega)
      · exact h 3 (by omega)
      · exact h 2 (by omega)
      · exact h 1 (by omega)
      · simpa using h 0 (by omega))
  show (lookupW (Mesh.triCell g y x a).I.writes q).getD d = a.I.get q d
  rw [Mesh.triCell_I_writes, lookupW_append _ _ _ hnone]
  rfl

theorem aliveRowCnt_succ (d : GridData) (y x n : Nat) :
    aliveRowCnt d y x (n + 1)
      = (if cellAt d y x = 1 then 1 else 0) + aliveRowCnt d y (x + 1) n := rfl

/-- Loop invariant of the inner cell loop of `UpdateTriangles`, under
non-wrapping cursors `index = 6m`, `base = 4m`. -/
theorem Mesh.triCols_spec (g : Mesh.Game) (y : Nat) :
    ∀ (n x : Nat) (a : Mesh.TriAcc) (m : Nat),
      a.index = 6 * m → a.base = 4 * m → 6 * (m + n) < 65536 →
      (Mesh.triCols g y n x a).index = 6 * (m + n) ∧
      (Mesh.triCols g y n x a).base = 4 * (m + n) ∧
      (Mesh.triCols g y n x a).V.size = a.V.size ∧
      (Mesh.triCols g y n x a).I.size = a.I.size ∧
      (Mesh.triCols g y n x a).idx
        = a.idx + 4 * aliveRowCnt (Mesh.gridData g g.Index) y x n ∧
      (∃ L, (Mesh.triCols g y n x a).I.writes = L ++ a.I.writes ∧
        ∀ e ∈ L, 6 * m ≤ e.1 ∧ e.1 < 6 * (m + n)) ∧
      (∃ L, (Mesh.triCols g y n x a).V.writes = L ++ a.V.writes ∧
        ∀ e ∈ L, a.idx ≤ e.1 ∧ e.1 < (Mesh.triCols g y n x a).idx) ∧
      (∀ k, m ≤ k → k < m + n → ∀ d,
        (Mesh.triCols g y n x a).I.get (6 * k) d = 4 * k ∧
        (Mesh.triCols g y n x a).I.get (6 * k + 1) d = 4 * k + 1 ∧
        (Mesh.triCols g y n x a).I.get (6 * k + 2) d = 4 * k + 3 ∧
        (Mesh.triCols g y n x a).I.get (6 * k + 3) d = 4 * k ∧
        (Mesh.triCols g y n x a).I.get (6 * k + 4) d = 4 * k + 2 ∧
        (Mesh.triCols g y n x a).I.get (6 * k + 5) d = 4 * k + 3) := by
  intro n
  induction n with
  | zero =>
      intro x a m hidx hbase hlt
      refine ⟨by simpa using hidx, by simpa using hbase, rfl, rfl,
        by show a.idx = a.idx + 4 * aliveRowCnt (Mesh.gridData g g.Index) y x 0; simp [aliveRowCnt],
        ?_, ?_, ?_⟩
      · exact ⟨[], rfl, by simp⟩
      · exact ⟨[], rfl, by simp⟩
      · intro k hk1 hk2
        exact absurd hk2 (by omega)
  | succ n ih =>
      intro x a m hidx hbase hlt
      set a2 := Mesh.triCell g y x a with ha2
      have hidx2 : a2.index = 6 * (m + 1) := by
        rw [ha2, Mesh.triCell_index, hidx]
        unfold u16
        omega
      have hbase2 : a2.base = 4 * (m + 1) := by
        rw [ha2, Mesh.triCell_base, hbase]
        unfold u16
        omega
      have hlt2 : 6 * ((m + 1) + n) < 65536 := by omega
      have hfold : Mesh.triCols g y (n + 1) x a = Mesh.triCols g y n (x + 1) a2 := rfl
      obtain ⟨hIdx, hBase, hVs, hIs, hIdxCnt, ⟨LI, hLIeq, hLIb⟩, ⟨LV, hLVeq, hLVb⟩, hPat⟩ :=
        ih (x + 1) a2 (m + 1) hidx2 hbase2 hlt2
      have hskip : ∀ q d, q < 6 * (m + 1) →
          (Mesh.triCols g y n (x + 1) a2).I.get q d = a2.I.get q d := by
        intro q d hq
        show (lookupW (Mesh.triCols g y n (x + 1) a2).I.writes q).getD d = _
        rw [hLIeq, lookupW_append _ _ _ (lookupW_eq_none _ _ (fun e he => by
          have := hLIb e he
          omega))]
        rfl
      have hquadpos : ∀ j, j < 6 → u16 (a.index + j) = 6 * m + j := by
        intro j hj
        unfold u16
        rw [hidx]
        omega
      refine ⟨?_, ?_, ?_, ?_, ?_, ?_, ?_, ?_⟩
      · rw [hfold, hIdx]; ring_nf
      · rw [hfold, hBase]; ring_nf
      · rw [hfold, hVs, ha2, Mesh.triCell_V_size]
      · rw [hfold, hIs, ha2, Mesh.triCell_I_size]
      · rw [hfold, hIdxCnt, ha2, Mesh.triCell_idx, aliveRowCnt_succ]
        by_cases hc : cellAt (Mesh.gridData g g.Index) y x = 1 <;> simp [hc] <;> omega
      · refine ⟨LI ++ [(u16 (a.index + 5), u16 (a.base + 3)),
          (u16 (a.index + 4), u16 (a.base + 2)),
          (u16 (a.index + 3), u16 a.base),
          (u16 (a.index + 2), u16 (a.base + 3)),
          (u16 (a.index + 1), u16 (a.base + 1)),
          (u16 a.index, u16 a.base)], ?_, ?_⟩
        · rw [hfold, hLIeq, ha2, Mesh.triCell_I_writes, List.append_assoc]
        · intro e he
          rcases List.mem_append.mp he with h1 | h2
          · have := hLIb e h1
            omega
          · simp only [List.mem_cons, List.not_mem_nil, or_false] at h2
            have hq0 : u16 a.index = 6 * m := by simpa using hquadpos 0 (by omega)
            have hq1 := hquadpos 1 (by omega)
            have hq2 := hquadpos 2 (by omega)
            have hq3 := hquadpos 3 (by omega)
            have hq4 := hquadpos 4 (by omega)
            have hq5 := hquadpos 5 (by omega)
            rcases h2 with rfl | rfl | rfl | rfl | rfl | rfl <;>
              simp only [hq0, hq1, hq2, hq3, hq4, hq5] <;> omega
      · refine ⟨LV ++ (if cellAt (Mesh.gridData g g.Index) y x = 1 then
            [(a.idx + 3, Mesh.cornerVtx g x y 1 1),
             (a.idx + 2, Mesh.cornerVtx g x y 1 0),
             (a.idx + 1, Mesh.cornerVtx g x y 0 1),
             (a.idx, Mesh.cornerVtx g x y 0 0)]
           else []), ?_, ?_⟩
        · rw [hfold, hLVeq, ha2, Mesh.triCell_V_writes, List.append_assoc]
        · intro e he
          have ha2idx : a.idx ≤ a2.idx := by
            rw [ha2, Mesh.triCell_idx]
            omega
          have hidxmono : a2.idx ≤ (Mesh.triCols g y n (x + 1) a2).idx := by
            rw [hIdxCnt]
            omega
          rcases List.mem_append.mp he with h1 | h2
          · have := hLVb e h1
            rw [hfold]
            omega
          · rw [hfold]
            by_cases hc : cellAt (Mesh.gridData g g.Index) y x = 1
            · rw [if_pos hc] at h2
              have ha2idx2 : a2.idx = a.idx + 4 := by
                rw [ha2, Mesh.triCell_idx, if_pos hc]
              simp only [List.mem_cons, List.not_mem_nil, or_false] at h2
              rcases h2 with rfl | rfl | rfl | rfl <;> simp <;> omega
            · rw [if_neg hc] at h2
              simp at h2
      · intro k hk1 hk2 d
        rw [hfold]
        by_cases hkm : k = m
        · subst hkm
          have hp := Mesh.triCell_get_pattern g y x a k hidx hbase (by omega) d
          rw [← ha2] at hp
          exact ⟨by rw [hskip _ _ (by omega)]; exact hp.1,
                 by rw [hskip _ _ (by omega)]; exact hp.2.1,
                 by rw [hskip _ _ (by omega)]; exact hp.2.2.1,
                 by rw [hskip _ _ (by omega)]; exact hp.2.2.2.1,
                 by rw [hskip _ _ (by omega)]; exact hp.2.2.2.2.1,
                 by rw [hskip _ _ (by omega)]; exact hp.2.2.2.2.2⟩
        · exact hPat k (by omega) (by omega) d

theorem aliveRowsCnt_succ (d : GridData) (w y n : Nat) :
    aliveRowsCnt d w y (n + 1) = aliveRowCnt d y 0 w + aliveRowsCnt d w (y + 1) n := rfl

/-- Loop invariant of the outer row loop of `UpdateTriangles`, under
non-wrapping cursors. -/
theorem Mesh.triRows_spec (g : Mesh.Game) :
    ∀ (n y : Nat) (a : Mesh.TriAcc) (m : Nat),
      a.index = 6 * m → a.base = 4 * m → 6 * (m + n * g.Width) < 65536 →
      (Mesh.triRows g n y a).index = 6 * (m + n * g.Width) ∧
      (Mesh.triRows g n y a).base = 4 * (m + n * g.Width) ∧
      (Mesh.triRows g n y a).V.size = a.V.size ∧
      (Mesh.triRows g n y a).I.size = a.I.size ∧
      (Mesh.triRows g n y a).idx
        = a.idx + 4 * aliveRowsCnt (Mesh.gridData g g.Index) g.Width y n ∧
      (∃ L, (Mesh.triRows g n y a).I.writes = L ++ a.I.writes ∧
        ∀ e ∈ L, 6 * m ≤ e.1 ∧ e.1 < 6 * (m + n * g.Width)) ∧
      (∃ L, (Mesh.triRows g n y a).V.writes = L ++ a.V.writes ∧
        ∀ e ∈ L, a.idx ≤ e.1 ∧ e.1 < (Mesh.triRows g n y a).idx) ∧
      (∀ k, m ≤ k → k < m + n * g.Width → ∀ d,
        (Mesh.triRows g n y a).I.get (6 * k) d = 4 * k ∧
        (Mesh.triRows g n y a).I.get (6 * k + 1) d = 4 * k + 1 ∧
        (Mesh.triRows g n y a).I.get (6 * k + 2) d = 4 * k + 3 ∧
        (Mesh.triRows g n y a).I.get (6 * k + 3) d = 4 * k ∧
        (Mesh.triRows g n y a).I.get (6 * k + 4) d = 4 * k + 2 ∧
        (Mesh.triRows g n y a).I.get (6 * k + 5) d = 4 * k + 3) := by
  intro n
  induction n with
  | zero =>
      intro y a m hidx hbase hlt
      refine ⟨by simpa using hidx, by simpa using hbase, rfl, rfl,
        by show a.idx = a.idx + 4 * aliveRowsCnt (Mesh.gridData g g.Index) g.Width y 0
           simp [aliveRowsCnt],
        ⟨[], rfl, by simp⟩, ⟨[], rfl, by simp⟩, ?_⟩
      intro k hk1 hk2
      exact absurd hk2 (by omega)
  | succ n ih =>
      intro y a m hidx hbase hlt
      set a1 := Mesh.triCols g y g.Width 0 a with ha1
      obtain ⟨cIdx, cBase, cVs, cIs, cIdxCnt, ⟨CI, hCIeq, hCIb⟩, ⟨CV, hCVeq, hCVb⟩, cPat⟩ :=
        Mesh.triCols_spec g y g.Width 0 a m hidx hbase (by
          have hle : 6 * (m + g.Width) ≤ 6 * (m + (n + 1) * g.Width) := by
            have : m + g.Width ≤ m + (n + 1) * g.Width := by
              have : g.Width ≤ (n + 1) * g.Width := Nat.le_mul_of_pos_left _ (by omega)
              omega
            omega
          omega)
      rw [← ha1] at cIdx cBase cVs cIs cIdxCnt hCIeq hCVeq hCVb cPat
      have harith : (m + g.Width) + n * g.Width = m + (n + 1) * g.Width := by ring
      obtain ⟨hIdx, hBase, hVs, hIs, hIdxCnt, ⟨LI, hLIeq, hLIb⟩, ⟨LV, hLVeq, hLVb⟩, hPat⟩ :=
        ih (y + 1) a1 (m + g.Width) cIdx cBase (by omega)
      have hfold : Mesh.triRows g (n + 1) y a = Mesh.triRows g n (y + 1) a1 := rfl
      have hskip : ∀ q d, q < 6 * (m + g.Width) →
          (Mesh.triRows g n (y + 1) a1).I.get q d = a1.I.get q d := by
        intro q d hq
        show (lookupW (Mesh.triRows g n (y + 1) a1).I.writes q).getD d = _
        rw [hLIeq, lookupW_append _ _ _ (lookupW_eq_none _ _ (fun e he => by
          have := hLIb e he
          omega))]
        rfl
      refine ⟨?_, ?_, ?_, ?_, ?_, ?_, ?_, ?_⟩
      · rw [hfold, hIdx, harith]
      · rw [hfold, hBase, harith]
      · rw [hfold, hVs, cVs]
      · rw [hfold, hIs, cIs]
      · rw [hfold, hIdxCnt, cIdxCnt, aliveRowsCnt_succ]
        omega
      · refine ⟨LI ++ CI, ?_, ?_⟩
        · rw [hfold, hLIeq, hCIeq, List.append_assoc]
        · intro e he
          rcases List.mem_append.mp he with h1 | h2
          · have := hLIb e h1
            omega
          · have := hCIb e h2
            constructor
            · omega
            · have : e.1 < 6 * (m + g.Width) := this.2
              omega
      · refine ⟨LV ++ CV, ?_, ?_⟩
        · rw [hfold, hLVeq, hCVeq, List.append_assoc]
        · intro e he
          have hmono : a1.idx ≤ (Mesh.triRows g n (y + 1) a1).idx := by
            rw [hIdxCnt]
            omega
          rcases List.mem_append.mp he with h1 | h2
          · have := hLVb e h1
            rw [hfold]
            omega
          · have := hCVb e h2
            rw [hfold]
            constructor
            · omega
            · omega
      · intro k hk1 hk2 d
        rw [hfold]
        by_cases hkr : k < m + g.Width
        · have hp := cPat k hk1 hkr d
          exact ⟨by rw [hskip _ _ (by omega)]; exact hp.1,
                 by rw [hskip _ _ (by omega)]; exact hp.2.1,
                 by rw [hskip _ _ (by omega)]; exact hp.2.2.1,
                 by rw [hskip _ _ (by omega)]; exact hp.2.2.2.1,
                 by rw [hskip _ _ (by omega)]; exact hp.2.2.2.2.1,
                 by rw [hskip _ _ (by omega)]; exact hp.2.2.2.2.2⟩
        · exact hPat k (by omega) (by omega) d

/-! ## Cursor tracking of UpdateTriangles with uint16 wraparound -/

theorem Mesh.triCols_cursor (g : Mesh.Game) (y : Nat) :
    ∀ (n x : Nat) (a : Mesh.TriAcc), a.index < 65536 → a.base < 65536 →
      (Mesh.triCols g y n x a).index = u16 (a.index + 6 * n) ∧
      (Mesh.triCols g y n x a).base = u16 (a.base + 4 * n) := by
  intro n
  induction n with
  | zero =>
      intro x a hi hb
      constructor
      · show a.index = u16 (a.index + 6 * 0)
        unfold u16
        omega
      · show a.base = u16 (a.base + 4 * 0)
        unfold u16
        omega
  | succ n ih =>
      intro x a hi hb
      have h2 := ih (x + 1) (Mesh.triCell g y x a)
        (by rw [Mesh.triCell_index]; exact u16_lt _)
        (by rw [Mesh.triCell_base]; exact u16_lt _)
      have hfold : Mesh.triCols g y (n + 1) x a
          = Mesh.triCols g y n (x + 1) (Mesh.triCell g y x a) := rfl
      constructor
      · rw [hfold, h2.1, Mesh.triCell_index]
        unfold u16
        rw [Nat.mod_add_mod]
        congr 1
        ring
      · rw [hfold, h2.2, Mesh.triCell_base]
        unfold u16
        rw [Nat.mod_add_mod]
        congr 1
        ring

theorem Mesh.triRows_cursor (g : Mesh.Game) :
    ∀ (n y : Nat) (a : Mesh.TriAcc), a.index < 65536 → a.base < 65536 →
      (Mesh.triRows g n y a).index = u16 (a.index + 6 * (n * g.Width)) ∧
      (Mesh.triRows g n y a).base = u16 (a.base + 4 * (n * g.Width)) := by
  intro n
  induction n with
  | zero =>
      intro y a hi hb
      constructor
      · show a.index = u16 (a.index + 6 * (0 * g.Width))
        unfold u16
        omega
      · show a.base = u16 (a.base + 4 * (0 * g.Width))
        unfold u16
        omega
  | succ n ih =>
      intro y a hi hb
      have hc := Mesh.triCols_cursor g y g.Width 0 a hi hb
      have h2 := ih (y + 1) (Mesh.triCols g y g.Width 0 a)
        (by rw [hc.1]; exact u16_lt _)
        (by rw [hc.2]; exact u16_lt _)
      have hfold : Mesh.triRows g (n + 1) y a
          = Mesh.triRows g n (y + 1) (Mesh.triCols g y g.Width 0 a) := rfl
      constructor
      · rw [hfold, h2.1, hc.1]
        unfold u16
        rw [Nat.mod_add_mod]
        congr 1
        ring
      · rw [hfold, h2.2, hc.2]
        unfold u16
        rw [Nat.mod_add_mod]
        congr 1
        ring

/-- A run of cells none of whose wrapped write positions hits `q` leaves
index slot `q` unchanged (valid also when the uint16 cursors wrap). -/
theorem Mesh.triCols_no_touch (g : Mesh.Game) (y : Nat) :
    ∀ (n x : Nat) (a : Mesh.TriAcc) (q d : Nat),
      (∀ i, i < n → ∀ j, j < 6 → u16 (a.index + (6 * i + j)) ≠ q) →
      (Mesh.triCols g y n x a).I.get q d = a.I.get q d := by
  intro n
  induction n with
  | zero =>
      intro x a q d h
      rfl
  | succ n ih =>
      intro x a q d h
      have hfold : Mesh.triCols g y (n + 1) x a
          = Mesh.triCols g y n (x + 1) (Mesh.triCell g y x a) := rfl
      rw [hfold, ih (x + 1) (Mesh.triCell g y x a) q d (by
        intro i hi j hj
        rw [Mesh.triCell_index]
        have heq : u16 (u16 (a.index + 6) + (6 * i + j))
            = u16 (a.index + (6 * (i + 1) + j)) := by
          unfold u16
          rw [Nat.mod_add_mod]
          congr 1
          ring
        rw [heq]
        exact h (i + 1) (by omega) j hj)]
      apply Mesh.triCell_get_other
      intro j hj
      have := h 0 (by omega) j hj
      simpa using this

theorem Mesh.triCols_split (g : Mesh.Game) (y : Nat) :
    ∀ (n1 n2 x : Nat) (a : Mesh.TriAcc),
      Mesh.triCols g y (n1 + n2) x a
        = Mesh.triCols g y n2 (x + n1) (Mesh.triCols g y n1 x a) := by
  intro n1
  induction n1 with
  | zero =>
      intro n2 x a
      rw [Nat.zero_add, Nat.add_zero]
      rfl
  | succ n1 ih =>
      intro n2 x a
      have h1 : n1 + 1 + n2 = (n1 + n2) + 1 := by omega
      rw [h1]
      have hfold : Mesh.triCols g y ((n1 + n2) + 1) x a
          = Mesh.triCols g y (n1 + n2) (x + 1) (Mesh.triCell g y x a) := rfl
      rw [hfold, ih n2 (x + 1) (Mesh.triCell g y x a)]
      have h2 : x + 1 + n1 = x + (n1 + 1) := by omega
      rw [h2]
      rfl

theorem Mesh.triRows_split (g : Mesh.Game) :
    ∀ (n1 n2 y : Nat) (a : Mesh.TriAcc),
      Mesh.triRows g (n1 + n2) y a
        = Mesh.triRows g n2 (y + n1) (Mesh.triRows g n1 y a) := by
  intro n1
  induction n1 with
  | zero =>
      intro n2 y a
      rw [Nat.zero_add, Nat.add_zero]
      rfl
  | succ n1 ih =>
      intro n2 y a
      have h1 : n1 + 1 + n2 = (n1 + n2) + 1 := by omega
      rw [h1]
      have hfold : Mesh.triRows g ((n1 + n2) + 1) y a
          = Mesh.triRows g (n1 + n2) (y + 1) (Mesh.triCols g y g.Width 0 a) := rfl
      rw [hfold, ih n2 (y + 1) (Mesh.triCols g y g.Width 0 a)]
      have h2 : y + 1 + n1 = y + (n1 + 1) := by omega
      rw [h2]
      rfl

/-! ## Exact vertex cursor advance and write bounds, wrap-free versions -/

theorem aliveRowCnt_le (d : GridData) (y : Nat) : ∀ n x, aliveRowCnt d y x n ≤ n := by
  intro n
  induction n with
  | zero => intro x; exact Nat.le_refl 0
  | succ n ih =>
      intro x
      rw [aliveRowCnt_succ]
      have := ih (x + 1)
      split <;> omega

theorem aliveRowsCnt_le (d : GridData) (w : Nat) : ∀ n y, aliveRowsCnt d w y n ≤ n * w := by
  intro n
  induction n with
  | zero => intro y; simp [aliveRowsCnt]
  | succ n ih =>
      intro y
      rw [aliveRowsCnt_succ]
      have h1 := aliveRowCnt_le d y w 0
      have h2 := ih (y + 1)
      have : (n + 1) * w = w + n * w := by ring
      omega

theorem Mesh.triCols_idx (g : Mesh.Game) (y : Nat) :
    ∀ (n x : Nat) (a : Mesh.TriAcc),
      (Mesh.triCols g y n x a).idx
        = a.idx + 4 * aliveRowCnt (Mesh.gridData g g.Index) y x n := by
  intro n
  induction n with
  | zero => intro x a; simp [aliveRowCnt, Mesh.triCols]
  | succ n ih =>
      intro x a
      have hfold : Mesh.triCols g y (n + 1) x a
          = Mesh.triCols g y n (x + 1) (Mesh.triCell g y x a) := rfl
      rw [hfold, ih (x + 1) _, Mesh.triCell_idx, aliveRowCnt_succ]
      split <;> omega

theorem Mesh.triRows_idx (g : Mesh.Game) :
    ∀ (n y : Nat) (a : Mesh.TriAcc),
      (Mesh.triRows g n y a).idx
        = a.idx + 4 * aliveRowsCnt (Mesh.gridData g g.Index) g.Width y n := by
  intro n
  induction n with
  | zero => intro y a; simp [aliveRowsCnt, Mesh.triRows]
  | succ n ih =>
      intro y a
      have hfold : Mesh.triRows g (n + 1) y a
          = Mesh.triRows g n (y + 1) (Mesh.triCols g y g.Width 0 a) := rfl
      rw [hfold, ih (y + 1) _, Mesh.triCols_idx, aliveRowsCnt_succ]
      ring

theorem Mesh.triCols_sizes (g : Mesh.Game) (y : Nat) :
    ∀ (n x : Nat) (a : Mesh.TriAcc),
      (Mesh.triCols g y n x a).V.size = a.V.size ∧
      (Mesh.triCols g y n x a).I.size = a.I.size := by
  intro n
  induction n with
  | zero => intro x a; exact ⟨rfl, rfl⟩
  | succ n ih =>
      intro x a
      have h := ih (x + 1) (Mesh.triCell g y x a)
      exact ⟨by rw [show (Mesh.triCols g y (n+1) x a).V.size
                = (Mesh.triCols g y n (x+1) (Mesh.triCell g y x a)).V.size from rfl,
              h.1, Mesh.triCell_V_size],
             by rw [show (Mesh.triCols g y (n+1) x a).I.size
                = (Mesh.triCols g y n (x+1) (Mesh.triCell g y x a)).I.size from rfl,
              h.2, Mesh.triCell_I_size]⟩

theorem Mesh.triRows_sizes (g : Mesh.Game) :
    ∀ (n y : Nat) (a : Mesh.TriAcc),
      (Mesh.triRows g n y a).V.size = a.V.size ∧
      (Mesh.triRows g n y a).I.size = a.I.size := by
  intro n
  induction n with
  | zero => intro y a; exact ⟨rfl, rfl⟩
  | succ n ih =>
      intro y a
      have h1 := Mesh.triCols_sizes g y g.Width 0 a
      have h2 := ih (y + 1) (Mesh.triCols g y g.Width 0 a)
      exact ⟨by rw [show (Mesh.triRows g (n+1) y a).V.size
                = (Mesh.triRows g n (y+1) (Mesh.triCols g y g.Width 0 a)).V.size from rfl,
              h2.1, h1.1],
             by rw [show (Mesh.triRows g (n+1) y a).I.size
                = (Mesh.triRows g n (y+1) (Mesh.triCols g y g.Width 0 a)).I.size from rfl,
              h2.2, h1.2]⟩

theorem Mesh.triCell_V_length (g : Mesh.Game) (y x : Nat) (a : Mesh.TriAcc) :
    (Mesh.triCell g y x a).V.writes.length
      = a.V.writes.length + (if cellAt (Mesh.gridData g g.Index) y x = 1 then 4 else 0) := by
  rw [Mesh.triCell_V_writes]
  split <;> simp

theorem Mesh.triCols_V_length (g : Mesh.Game) (y : Nat) :
    ∀ (n x : Nat) (a : Mesh.TriAcc),
      (Mesh.triCols g y n x a).V.writes.length
        = a.V.writes.length + 4 * aliveRowCnt (Mesh.gridData g g.Index) y x n := by
  intro n
  induction n with
  | zero => intro x a; simp [aliveRowCnt, Mesh.triCols]
  | succ n ih =>
      intro x a
      have hfold : Mesh.triCols g y (n + 1) x a
          = Mesh.triCols g y n (x + 1) (Mesh.triCell g y x a) := rfl
      rw [hfold, ih (x + 1) _, Mesh.triCell_V_length, aliveRowCnt_succ]
      split <;> omega

theorem Mesh.triRows_V_length (g : Mesh.Game) :
    ∀ (n y : Nat) (a : Mesh.TriAcc),
      (Mesh.triRows g n y a).V.writes.length
        = a.V.writes.length + 4 * aliveRowsCnt (Mesh.gridData g g.Index) g.Width y n := by
  intro n
  induction n with
  | zero => intro y a; simp [aliveRowsCnt, Mesh.triRows]
  | succ n ih =>
      intro y a
      have hfold : Mesh.triRows g (n + 1) y a
          = Mesh.triRows g n (y + 1) (Mesh.triCols g y g.Width 0 a) := rfl
      rw [hfold, ih (y + 1) _, Mesh.triCols_V_length, aliveRowsCnt_succ]
      ring

/-- Write-position bounds of the cell loop, valid also when the `uint16`
cursors wrap: index writes land below 65536, vertex writes land between
the entry cursor and the exit cursor. -/
theorem Mesh.triCols_writes (g : Mesh.Game) (y : Nat) :
    ∀ (n x : Nat) (a : Mesh.TriAcc),
      (∃ L, (Mesh.triCols g y n x a).I.writes = L ++ a.I.writes ∧
        ∀ e ∈ L, e.1 < 65536) ∧
      (∃ L, (Mesh.triCols g y n x a).V.writes = L ++ a.V.writes ∧
        ∀ e ∈ L, a.idx ≤ e.1 ∧ e.1 < (Mesh.triCols g y n x a).idx) := by
  intro n
  induction n with
  | zero => intro x a; exact ⟨⟨[], rfl, by simp⟩, ⟨[], rfl, by simp⟩⟩
  | succ n ih =>
      intro x a
      set a2 := Mesh.triCell g y x a with ha2
      have hfold : Mesh.triCols g y (n + 1) x a = Mesh.triCols g y n (x + 1) a2 := rfl
      obtain ⟨⟨LI, hLIeq, hLIb⟩, ⟨LV, hLVeq, hLVb⟩⟩ := ih (x + 1) a2
      have hidxcell : a2.idx = a.idx + (if cellAt (Mesh.gridData g g.Index) y x = 1 then 4 else 0) := by
        rw [ha2, Mesh.triCell_idx]
      have hidxmono : a2.idx ≤ (Mesh.triCols g y n (x + 1) a2).idx := by
        rw [Mesh.triCols_idx]
        omega
      constructor
      · refine ⟨LI ++ [(u16 (a.index + 5), u16 (a.base + 3)),
          (u16 (a.index + 4), u16 (a.base + 2)),
          (u16 (a.index + 3), u16 a.base),
          (u16 (a.index + 2), u16 (a.base + 3)),
          (u16 (a.index + 1), u16 (a.base + 1)),
          (u16 a.index, u16 a.base)], ?_, ?_⟩
        · rw [hfold, hLIeq, ha2, Mesh.triCell_I_writes, List.append_assoc]
        · intro e he
          rcases List.mem_append.mp he with h1 | h2
          · exact hLIb e h1
          · simp only [List.mem_cons, List.not_mem_nil, or_false] at h2
            rcases h2 with rfl | rfl | rfl | rfl | rfl | rfl <;> exact u16_lt _
      · refine ⟨LV ++ (if cellAt (Mesh.gridData g g.Index) y x = 1 then
            [(a.idx + 3, Mesh.cornerVtx g x y 1 1),
             (a.idx + 2, Mesh.cornerVtx g x y 1 0),
             (a.idx + 1, Mesh.cornerVtx g x y 0 1),
             (a.idx, Mesh.cornerVtx g x y 0 0)]
           else []), ?_, ?_⟩
        · rw [hfold, hLVeq, ha2, Mesh.triCell_V_writes, List.append_assoc]
        · intro e he
          rw [hfold]
          rcases List.mem_append.mp he with h1 | h2
          · have := hLVb e h1
            omega
          · by_cases hc : cellAt (Mesh.gridData g g.Index) y x = 1
            · rw [if_pos hc] at h2
              rw [if_pos hc] at hidxcell
              simp only [List.mem_cons, List.not_mem_nil, or_false] at h2
              rcases h2 with rfl | rfl | rfl | rfl <;> simp <;> omega
            · rw [if_neg hc] at h2
              simp at h2

/-- Write-position bounds of the row loop, valid also under wraparound. -/
theorem Mesh.triRows_writes (g : Mesh.Game) :
    ∀ (n y : Nat) (a : Mesh.TriAcc),
      (∃ L, (Mesh.triRows g n y a).I.writes = L ++ a.I.writes ∧
        ∀ e ∈ L, e.1 < 65536) ∧
      (∃ L, (Mesh.triRows g n y a).V.writes = L ++ a.V.writes ∧
        ∀ e ∈ L, a.idx ≤ e.1 ∧ e.1 < (Mesh.triRows g n y a).idx) := by
  intro n
  induction n with
  | zero => intro y a; exact ⟨⟨[], rfl, by simp⟩, ⟨[], rfl, by simp⟩⟩
  | succ n ih =>
      intro y a
      set a1 := Mesh.triCols g y g.Width 0 a with ha1
      have hfold : Mesh.triRows g (n + 1) y a = Mesh.triRows g n (y + 1) a1 := rfl
      obtain ⟨⟨CI, hCIeq, hCIb⟩, ⟨CV, hCVeq, hCVb⟩⟩ := Mesh.triCols_writes g y g.Width 0 a
      rw [← ha1] at hCIeq hCVeq hCVb
      obtain ⟨⟨LI, hLIeq, hLIb⟩, ⟨LV, hLVeq, hLVb⟩⟩ := ih (y + 1) a1
      have hmono1 : a.idx ≤ a1.idx := by
        rw [ha1, Mesh.triCols_idx]
        omega
      have hmono2 : a1.idx ≤ (Mesh.triRows g n (y + 1) a1).idx := by
        rw [Mesh.triRows_idx]
        omega
      constructor
      · refine ⟨LI ++ CI, ?_, ?_⟩
        · rw [hfold, hLIeq, hCIeq, List.append_assoc]
        · intro e he
          rcases List.mem_append.mp he with h1 | h2
          · exact hLIb e h1
          · exact hCIb e h2
      · refine ⟨LV ++ CV, ?_, ?_⟩
        · rw [hfold, hLVeq, hCVeq, List.append_assoc]
        · intro e he
          rw [hfold]
          rcases List.mem_append.mp he with h1 | h2
          · have := hLVb e h1
            omega
          · have := hCVb e h2
            omega

/-! ## C6: the index pattern written by UpdateTriangles -/

/-- C6, amended: valid whenever the `uint16` cursors cannot wrap, i.e.
`6·Width·Height ≤ 2^16`.  Then for every cell ordinal `k` the index slots
`6k .. 6k+5` hold the fixed quad pattern `(4k, 4k+1, 4k+3, 4k, 4k+2, 4k+3)`
(the cursors advance 6 and 4 per cell), and the pass appends exactly
`4 × (number of alive cells)` vertex writes, all at positions below the
final vertex cursor `4 × AliveCount`. -/
theorem claim_C6_amended (g : Mesh.Game) (h6 : 6 * (g.Width * g.Height) ≤ 65536) :
    (∀ k, k < g.Width * g.Height → ∀ d,
      (Mesh.UpdateTriangles g).Indices.get (6 * k) d = 4 * k ∧
      (Mesh.UpdateTriangles g).Indices.get (6 * k + 1) d = 4 * k + 1 ∧
      (Mesh.UpdateTriangles g).Indices.get (6 * k + 2) d = 4 * k + 3 ∧
      (Mesh.UpdateTriangles g).Indices.get (6 * k + 3) d = 4 * k ∧
      (Mesh.UpdateTriangles g).Indices.get (6 * k + 4) d = 4 * k + 2 ∧
      (Mesh.UpdateTriangles g).Indices.get (6 * k + 5) d = 4 * k + 3) ∧
    (∃ L, (Mesh.UpdateTriangles g).Vertices.writes = L ++ g.Vertices.writes ∧
      L.length = 4 * AliveCount (Mesh.gridData g g.Index) g.Width g.Height ∧
      ∀ e ∈ L, e.1 < 4 * AliveCount (Mesh.gridData g g.Index) g.Width g.Height) := by
  have hlt : 6 * (0 + g.Height * g.Width) < 65536 := by
    have hne : 6 * (g.Width * g.Height) ≠ 65536 := by omega
    have hc : g.Width * g.Height = g.Height * g.Width := Nat.mul_comm _ _
    omega
  obtain ⟨hIdx, hBase, hVs, hIs, hIdxCnt, ⟨LI, hLIeq, hLIb⟩, ⟨LV, hLVeq, hLVb⟩, hPat⟩ :=
    Mesh.triRows_spec g g.Height 0 ⟨g.Vertices, g.Indices, 0, 0, 0⟩ 0 rfl rfl hlt
  have hVlen := Mesh.triRows_V_length g g.Height 0 ⟨g.Vertices, g.Indices, 0, 0, 0⟩
  constructor
  · intro k hk d
    have hk2 : k < 0 + g.Height * g.Width := by
      have := Nat.mul_comm g.Width g.Height
      omega
    exact hPat k (by omega) hk2 d
  · refine ⟨LV, hLVeq, ?_, ?_⟩
    · have : (Mesh.triRows g g.Height 0 ⟨g.Vertices, g.Indices, 0, 0, 0⟩).V.writes.length
          = LV.length + g.Vertices.writes.length := by
        rw [hLVeq, List.length_append]
      rw [hVlen] at this
      have hAC : aliveRowsCnt (Mesh.gridData g g.Index) g.Width 0 g.Height
          = AliveCount (Mesh.gridData g g.Index) g.Width g.Height := rfl
      rw [hAC] at this
      simp at this
      omega
    · intro e he
      have hb := hLVb e he
      rw [hIdxCnt] at hb
      have hAC : aliveRowsCnt (Mesh.gridData g g.Index) g.Width 0 g.Height
          = AliveCount (Mesh.gridData g g.Index) g.Width g.Height := rfl
      rw [hAC] at hb
      simp at hb
      omega

theorem claim_C6_amended_witness :
    6 * (wgm.Width * wgm.Height) ≤ 65536 ∧
    (Mesh.UpdateTriangles wgm).Indices.get 8 0 = 7 := by
  have h := (claim_C6_amended wgm (by decide)).1 1 (by decide) 0
  refine ⟨by decide, ?_⟩
  have := h.2.2.1
  simpa using this

/-- A shipped-scale mesh game on which the `uint16` index cursor wraps:
105×105 = 11025 cells, so the cursor passes 65536 during the pass (as it
does on the shipped 200×200 grid).  All cells dead; buffers sized by the
`Init` formula for `Cellsize = 4`. -/
def cex6 : Mesh.Game :=
  { Width := 105, Height := 105, Cellsize := 4, Density := 5
    ScreenWidth := 420, ScreenHeight := 420
    GridA := zeroGrid 105 105, GridB := zeroGrid 105 105
    Index := 0, Black := ⟨0, 0, 0, 255⟩, White := ⟨200, 200, 200, 255⟩
    Grey := ⟨128, 128, 128, 255⟩
    Elapsed := 0, TPG := 5
    Vertices := ⟨176400, []⟩, Indices := ⟨264600, []⟩
    Pause := false, Debug := false }

/-- C6 as stated is false once the `uint16` cursors wrap: on the 105×105
game `cex6`, after `UpdateTriangles` the index slot `6·0 = 0` of cell 0
holds 43690 — the wrapped-around write of cell 10922 (whose positions
`u16(6·10922+j)` pass 65536 and land back at slot 0) — instead of the
claimed pattern value `4·0 = 0`. -/
theorem claim_C6_cex :
    (Mesh.UpdateTriangles cex6).Indices.get (6 * 0) 0 = 43690 ∧
    ¬ ((Mesh.UpdateTriangles cex6).Indices.get (6 * 0) 0 = 4 * 0) := by
  set A0 : Mesh.TriAcc := ⟨cex6.Vertices, cex6.Indices, 0, 0, 0⟩ with hA0
  set B := Mesh.triRows cex6 104 0 A0 with hB
  have hBidx : B.index = 65520 := by
    have h := (Mesh.triRows_cursor cex6 104 0 A0 (by decide) (by decide)).1
    rw [show A0.index = 0 from rfl, show cex6.Width = 105 from rfl] at h
    rw [hB, h]
    decide
  have hBbase : B.base = 43680 := by
    have h := (Mesh.triRows_cursor cex6 104 0 A0 (by decide) (by decide)).2
    rw [show A0.base = 0 from rfl, show cex6.Width = 105 from rfl] at h
    rw [hB, h]
    decide
  set C1 := Mesh.triCell cex6 104 0 B with hC1
  set C2 := Mesh.triCell cex6 104 1 C1 with hC2
  set C := Mesh.triCell cex6 104 2 C2 with hC
  have hC1idx : C1.index = 65526 := by
    rw [hC1, Mesh.triCell_index, hBidx]
    decide
  have hC1base : C1.base = 43684 := by
    rw [hC1, Mesh.triCell_base, hBbase]
    decide
  have hC2idx : C2.index = 65532 := by
    rw [hC2, Mesh.triCell_index, hC1idx]
    decide
  have hC2base : C2.base = 43688 := by
    rw [hC2, Mesh.triCell_base, hC1base]
    decide
  have hCidx : C.index = 2 := by
    rw [hC, Mesh.triCell_index, hC2idx]
    decide
  have hCget : C.I.get 0 0 = 43690 := by
    show (lookupW C.I.writes 0).getD 0 = 43690
    rw [hC, Mesh.triCell_I_writes, hC2idx, hC2base]
    rw [show u16 (65532 + 5) = 1 from by decide, show u16 (65532 + 4) = 0 from by decide,
        show u16 (43688 + 2) = 43690 from by decide]
    simp only [List.cons_append, lookupW_cons]
    simp
  have hchain : (Mesh.UpdateTriangles cex6).Indices
      = (Mesh.triCols cex6 104 102 3 C).I := by
    have h1 : (Mesh.UpdateTriangles cex6).Indices
        = (Mesh.triRows cex6 105 0 A0).I := rfl
    have h2 := Mesh.triRows_split cex6 104 1 0 A0
    have h3 : Mesh.triRows cex6 1 104 B = Mesh.triCols cex6 104 105 0 B := rfl
    have h4 := Mesh.triCols_split cex6 104 3 102 0 B
    have h5 : Mesh.triCols cex6 104 3 0 B = C := rfl
    rw [h1]
    rw [show (105 : Nat) = 104 + 1 from rfl] at *
    rw [h2]
    rw [show (0 : Nat) + 104 = 104 from rfl, ← hB, h3]
    rw [show (104 : Nat) + 1 = 3 + 102 from rfl] at h4 ⊢
    rw [h4, show (0 : Nat) + 3 = 3 from rfl, h5]
  have hnt : (Mesh.triCols cex6 104 102 3 C).I.get 0 0 = C.I.get 0 0 := by
    apply Mesh.triCols_no_touch
    intro i hi j hj
    rw [hCidx]
    unfold u16
    have hsmall : 2 + (6 * i + j) < 65536 := by omega
    rw [Nat.mod_eq_of_lt hsmall]
    omega
  constructor
  · show (Mesh.UpdateTriangles cex6).Indices.get 0 0 = 43690
    unfold Store.get
    rw [hchain]
    have : (Mesh.triCols cex6 104 102 3 C).I.get 0 0 = 43690 := by
      rw [hnt, hCget]
    exact this
  · intro h
    rw [show (6 : Nat) * 0 = 0 from rfl] at h
    have : (Mesh.UpdateTriangles cex6).Indices.get 0 0 = 43690 := by
      show Store.get (Mesh.UpdateTriangles cex6).Indices 0 0 = 43690
      rw [show (Mesh.UpdateTriangles cex6).Indices.get 0 0
          = (Mesh.triCols cex6 104 102 3 C).I.get 0 0 from by rw [hchain]]
      rw [hnt, hCget]
    omega

/-! ## Per-pixel behaviour of UpdatePixels -/

theorem Raster.writePixel_writes (g : Raster.Game) (x y : Nat) :
    (Raster.writePixel g x y).Pixels.writes
      = [(4 * (x + y * g.ScreenWidth) + 3, 255),
         (4 * (x + y * g.ScreenWidth) + 2, Raster.pixColor g x y),
         (4 * (x + y * g.ScreenWidth) + 1, Raster.pixColor g x y),
         (4 * (x + y * g.ScreenWidth), Raster.pixColor g x y)] ++ g.Pixels.writes := rfl

theorem Raster.pixColor_pixels (g : Raster.Game) (b : Store Nat) (x y : Nat) :
    Raster.pixColor { g with Pixels := b } x y = Raster.pixColor g x y := rfl

theorem Raster.pixCols_writes (y sw : Nat) :
    ∀ (n x0 : Nat) (g : Raster.Game), g.ScreenWidth = sw →
      ∃ L, (Raster.pixCols y n x0 g).Pixels.writes = L ++ g.Pixels.writes ∧
        ∀ e ∈ L, 4 * (x0 + y * sw) ≤ e.1 ∧ e.1 < 4 * ((x0 + n) + y * sw) := by
  intro n
  induction n with
  | zero =>
      intro x0 g hSW
      exact ⟨[], rfl, by simp⟩
  | succ n ih =>
      intro x0 g hSW
      obtain ⟨L, hL, hLb⟩ := ih (x0 + 1) (Raster.writePixel g x0 y)
        (by rw [show (Raster.writePixel g x0 y).ScreenWidth = g.ScreenWidth from rfl]; exact hSW)
      have hfold : Raster.pixCols y (n + 1) x0 g
          = Raster.pixCols y n (x0 + 1) (Raster.writePixel g x0 y) := rfl
      refine ⟨L ++ [(4 * (x0 + y * g.ScreenWidth) + 3, 255),
        (4 * (x0 + y * g.ScreenWidth) + 2, Raster.pixColor g x0 y),
        (4 * (x0 + y * g.ScreenWidth) + 1, Raster.pixColor g x0 y),
        (4 * (x0 + y * g.ScreenWidth), Raster.pixColor g x0 y)], ?_, ?_⟩
      · rw [hfold, hL, Raster.writePixel_writes, List.append_assoc]
      · intro e he
        rcases List.mem_append.mp he with h1 | h2
        · have := hLb e h1
          omega
        · simp only [List.mem_cons, List.not_mem_nil, or_false] at h2
          rcases h2 with rfl | rfl | rfl | rfl <;> rw [hSW] <;> simp <;> omega

theorem Raster.pixRows_writes (sw : Nat) :
    ∀ (n y0 : Nat) (g : Raster.Game), g.ScreenWidth = sw →
      ∃ L, (Raster.pixRows n y0 g).Pixels.writes = L ++ g.Pixels.writes ∧
        ∀ e ∈ L, 4 * (y0 * sw) ≤ e.1 ∧ e.1 < 4 * ((y0 + n) * sw) := by
  intro n
  induction n with
  | zero =>
      intro y0 g hSW
      exact ⟨[], rfl, by simp⟩
  | succ n ih =>
      intro y0 g hSW
      obtain ⟨b1, hb1⟩ := Raster.pixCols_shape y0 g.ScreenWidth 0 g
      obtain ⟨C, hC, hCb⟩ := Raster.pixCols_writes y0 sw g.ScreenWidth 0 g hSW
      obtain ⟨L, hL, hLb⟩ := ih (y0 + 1) (Raster.pixCols y0 g.ScreenWidth 0 g)
        (by rw [hb1]; exact hSW)
      have hfold : Raster.pixRows (n + 1) y0 g
          = Raster.pixRows n (y0 + 1) (Raster.pixCols y0 g.ScreenWidth 0 g) := rfl
      refine ⟨L ++ C, ?_, ?_⟩
      · rw [hfold, hL, hC, List.append_assoc]
      · intro e he
        rcases List.mem_append.mp he with h1 | h2
        · have := hLb e h1
          have hd : (y0 + 1 + n) * sw = (y0 + (n + 1)) * sw := by ring
          have hlo : y0 * sw ≤ (y0 + 1) * sw := Nat.mul_le_mul_right _ (by omega)
          omega
        · have := hCb e h2
          rw [hSW] at this
          have h0 : (0 + sw) + y0 * sw = (y0 + 1) * sw := by ring
          have harith : (y0 + 1) * sw ≤ (y0 + (n + 1)) * sw := by
            have : y0 + 1 ≤ y0 + (n + 1) := by omega
            exact Nat.mul_le_mul_right _ this
          constructor
          · omega
          · omega

theorem Raster.writePixel_get (g : Raster.Game) (x y d : Nat) :
    ((Raster.writePixel g x y).Pixels.get (4 * (x + y * g.ScreenWidth)) d
        = Raster.pixColor g x y) ∧
    ((Raster.writePixel g x y).Pixels.get (4 * (x + y * g.ScreenWidth) + 1) d
        = Raster.pixColor g x y) ∧
    ((Raster.writePixel g x y).Pixels.get (4 * (x + y * g.ScreenWidth) + 2) d
        = Raster.pixColor g x y) ∧
    ((Raster.writePixel g x y).Pixels.get (4 * (x + y * g.ScreenWidth) + 3) d = 255) := by
  refine ⟨?_, ?_, ?_, ?_⟩ <;>
    · show (lookupW (Raster.writePixel g x y).Pixels.writes _).getD d = _
      rw [Raster.writePixel_writes]
      simp only [List.cons_append, lookupW_cons]
      split_ifs <;> first | (exfalso; omega) | simp

theorem Raster.pixCols_get (y sw d : Nat) :
    ∀ (n x0 : Nat) (g : Raster.Game) (X : Nat), g.ScreenWidth = sw →
      x0 ≤ X → X < x0 + n →
      ((Raster.pixCols y n x0 g).Pixels.get (4 * (X + y * sw)) d
          = Raster.pixColor g X y) ∧
      ((Raster.pixCols y n x0 g).Pixels.get (4 * (X + y * sw) + 1) d
          = Raster.pixColor g X y) ∧
      ((Raster.pixCols y n x0 g).Pixels.get (4 * (X + y * sw) + 2) d
          = Raster.pixColor g X y) ∧
      ((Raster.pixCols y n x0 g).Pixels.get (4 * (X + y * sw) + 3) d = 255) := by
  intro n
  induction n with
  | zero =>
      intro x0 g X hSW h1 h2
      exact absurd h2 (by omega)
  | succ n ih =>
      intro x0 g X hSW h1 h2
      have hSW2 : (Raster.writePixel g x0 y).ScreenWidth = sw := hSW
      have hfold : Raster.pixCols y (n + 1) x0 g
          = Raster.pixCols y n (x0 + 1) (Raster.writePixel g x0 y) := rfl
      by_cases hX : X = x0
      · subst hX
        obtain ⟨L, hL, hLb⟩ := Raster.pixCols_writes y sw n (X + 1)
          (Raster.writePixel g X y) hSW2
        have hskip : ∀ q, q < 4 * ((X + 1) + y * sw) →
            (Raster.pixCols y n (X + 1) (Raster.writePixel g X y)).Pixels.get q d
              = (Raster.writePixel g X y).Pixels.get q d := by
          intro q hq
          show (lookupW (Raster.pixCols y n (X + 1) (Raster.writePixel g X y)).Pixels.writes q).getD d = _
          rw [hL, lookupW_append _ _ _ (lookupW_eq_none _ _ (fun e he => by
            have := hLb e he
            omega))]
          rfl
        have hwp := Raster.writePixel_get g X y d
        rw [hSW] at hwp
        exact ⟨by rw [hfold, hskip _ (by omega)]; exact hwp.1,
               by rw [hfold, hskip _ (by omega)]; exact hwp.2.1,
               by rw [hfold, hskip _ (by omega)]; exact hwp.2.2.1,
               by rw [hfold, hskip _ (by omega)]; exact hwp.2.2.2⟩
      · have hcol : Raster.pixColor (Raster.writePixel g x0 y) X y = Raster.pixColor g X y := rfl
        have h := ih (x0 + 1) (Raster.writePixel g x0 y) X hSW2 (by omega) (by omega)
        rw [hcol] at h
        exact ⟨by rw [hfold]; exact h.1, by rw [hfold]; exact h.2.1,
               by rw [hfold]; exact h.2.2.1, by rw [hfold]; exact h.2.2.2⟩

theorem Raster.pixRows_get (sw d : Nat) :
    ∀ (n y0 : Nat) (g : Raster.Game) (X Y : Nat), g.ScreenWidth = sw → X < sw →
      y0 ≤ Y → Y < y0 + n →
      ((Raster.pixRows n y0 g).Pixels.get (4 * (X + Y * sw)) d
          = Raster.pixColor g X Y) ∧
      ((Raster.pixRows n y0 g).Pixels.get (4 * (X + Y * sw) + 1) d
          = Raster.pixColor g X Y) ∧
      ((Raster.pixRows n y0 g).Pixels.get (4 * (X + Y * sw) + 2) d
          = Raster.pixColor g X Y) ∧
      ((Raster.pixRows n y0 g).Pixels.get (4 * (X + Y * sw) + 3) d = 255) := by
  intro n
  induction n with
  | zero =>
      intro y0 g X Y hSW hX h1 h2
      exact absurd h2 (by omega)
  | succ n ih =>
      intro y0 g X Y hSW hX h1 h2
      set g1 := Raster.pixCols y0 g.ScreenWidth 0 g with hg1
      have hfold : Raster.pixRows (n + 1) y0 g = Raster.pixRows n (y0 + 1) g1 := rfl
      obtain ⟨b1, hb1⟩ := Raster.pixCols_shape y0 g.ScreenWidth 0 g
      rw [← hg1] at hb1
      have hSW1 : g1.ScreenWidth = sw := by rw [hb1]; exact hSW
      by_cases hY : Y = y0
      · subst hY
        obtain ⟨L, hL, hLb⟩ := Raster.pixRows_writes sw n (Y + 1) g1 hSW1
        have hexp : (Y + 1) * sw = Y * sw + sw := by ring
        have hskip : ∀ q, q < 4 * ((Y + 1) * sw) →
            (Raster.pixRows n (Y + 1) g1).Pixels.get q d = g1.Pixels.get q d := by
          intro q hq
          show (lookupW (Raster.pixRows n (Y + 1) g1).Pixels.writes q).getD d = _
          rw [hL, lookupW_append _ _ _ (lookupW_eq_none _ _ (fun e he => by
            have := hLb e he
            omega))]
          rfl
        have hrow := Raster.pixCols_get Y sw d g.ScreenWidth 0 g X hSW (by omega)
          (by rw [hSW]; omega)
        rw [← hg1] at hrow
        exact ⟨by rw [hfold, hskip _ (by omega)]; exact hrow.1,
               by rw [hfold, hskip _ (by omega)]; exact hrow.2.1,
               by rw [hfold, hskip _ (by omega)]; exact hrow.2.2.1,
               by rw [hfold, hskip _ (by omega)]; exact hrow.2.2.2⟩
      · have hcol : Raster.pixColor g1 X Y = Raster.pixColor g X Y := by
          rw [hb1]
          exact Raster.pixColor_pixels g b1 X Y
        have h := ih (y0 + 1) g1 X Y hSW1 hX (by omega) (by omega)
        rw [hcol] at h
        exact ⟨by rw [hfold]; exact h.1, by rw [hfold]; exact h.2.1,
               by rw [hfold]; exact h.2.2.1, by rw [hfold]; exact h.2.2.2⟩

/-! ## C8: the pixel buffer after UpdatePixels -/

/-- C8.  After `UpdatePixels`, the four bytes of screen pixel `(X, Y)` at
offset `4·(X + Y·ScreenWidth)` are `(c, c, c, 0xff)` where `c` is 128
(mid-gray) whenever gridlines are enabled and the pixel lies on a cell
boundary (`X` or `Y` divisible by `Cellsize`), regardless of cell state;
otherwise `c` is 0 (black) when the owning cell
`(X / Cellsize, Y / Cellsize)` is alive in the active grid and 255 (white)
when it is dead. -/
theorem claim_C8 (g : Raster.Game) (X Y d : Nat)
    (hX : X < g.ScreenWidth) (hY : Y < g.ScreenHeight) :
    ((Raster.UpdatePixels g).Pixels.get (4 * (X + Y * g.ScreenWidth)) d
        = if g.Gridlines ∧ (X % g.Cellsize = 0 ∨ Y % g.Cellsize = 0) then 128
          else if cellAt (Raster.gridData g g.Index) (Y / g.Cellsize) (X / g.Cellsize) = 1
          then 0 else 255) ∧
    ((Raster.UpdatePixels g).Pixels.get (4 * (X + Y * g.ScreenWidth) + 1) d
        = if g.Gridlines ∧ (X % g.Cellsize = 0 ∨ Y % g.Cellsize = 0) then 128
          else if cellAt (Raster.gridData g g.Index) (Y / g.Cellsize) (X / g.Cellsize) = 1
          then 0 else 255) ∧
    ((Raster.UpdatePixels g).Pixels.get (4 * (X + Y * g.ScreenWidth) + 2) d
        = if g.Gridlines ∧ (X % g.Cellsize = 0 ∨ Y % g.Cellsize = 0) then 128
          else if cellAt (Raster.gridData g g.Index) (Y / g.Cellsize) (X / g.Cellsize) = 1
          then 0 else 255) ∧
    ((Raster.UpdatePixels g).Pixels.get (4 * (X + Y * g.ScreenWidth) + 3) d = 255) := by
  have h := Raster.pixRows_get g.ScreenWidth d g.ScreenHeight 0 g X Y rfl hX
    (by omega) (by omega)
  have hc : Raster.pixColor g X Y
      = if g.Gridlines ∧ (X % g.Cellsize = 0 ∨ Y % g.Cellsize = 0) then 128
        else if cellAt (Raster.gridData g g.Index) (Y / g.Cellsize) (X / g.Cellsize) = 1
        then 0 else 255 := rfl
  rw [hc] at h
  exact h

theorem claim_C8_witness :
    (1 : Nat) < wgr.ScreenWidth ∧ (1 : Nat) < wgr.ScreenHeight ∧
    (Raster.UpdatePixels wgr).Pixels.get (4 * (1 + 1 * wgr.ScreenWidth)) 0 =
      (if wgr.Gridlines ∧ (1 % wgr.Cellsize = 0 ∨ 1 % wgr.Cellsize = 0) then 128
       else if cellAt (Raster.gridData wgr wgr.Index) (1 / wgr.Cellsize) (1 / wgr.Cellsize) = 1
       then 0 else 255) ∧
    (Raster.UpdatePixels wgr).Pixels.get (4 * (1 + 1 * wgr.ScreenWidth) + 3) 0 = 255 := by
  have h := claim_C8 wgr 1 1 0 (by decide) (by decide)
  exact ⟨by decide, by decide, h.1, h.2.2.2⟩

/-! ## C9: the vertex buffer is zeroed before the rebuild -/

theorem Mesh.clearLoop_size :
    ∀ (n i : Nat) (b : Store Vtx), (Mesh.clearLoop n i b).size = b.size := by
  intro n
  induction n with
  | zero => intro i b; rfl
  | succ n ih =>
      intro i b
      show (Mesh.clearLoop n (i + 1) (b.write i Vtx.zero)).size = b.size
      rw [ih (i + 1) _]
      rfl

theorem Mesh.clearLoop_get :
    ∀ (n i : Nat) (b : Store Vtx) (p : Nat) (d : Vtx),
      (Mesh.clearLoop n i b).get p d
        = if i ≤ p ∧ p < i + n then Vtx.zero else b.get p d := by
  intro n
  induction n with
  | zero =>
      intro i b p d
      rw [if_neg (by omega)]
      rfl
  | succ n ih =>
      intro i b p d
      show (Mesh.clearLoop n (i + 1) (b.write i Vtx.zero)).get p d = _
      rw [ih (i + 1) _ p d]
      by_cases h1 : i + 1 ≤ p ∧ p < i + 1 + n
      · rw [if_pos h1, if_pos (by omega)]
      · rw [if_neg h1]
        by_cases h2 : p = i
        · subst h2
          rw [Store.get_write_self, if_pos (by omega)]
        · rw [Store.get_write_ne _ _ _ _ _ h2, if_neg (by omega)]

/-- C9, amended.  On every advancing generation of the mesh variant,
`ClearVertices` really zeroes every vertex entry before `UpdateTriangles`
runs (its FIXME notwithstanding), so no slot ever exposes stale vertex
data of a prior generation: after `UpdateCells`, every vertex entry from
position `4 × AliveCount` (the final vertex cursor) up to the buffer size
reads as the zero vertex.  (Dead-cell index slots below that cursor may
reference an alive cell's current-rebuild vertices — see the
counterexample — but never prior-generation data.) -/
theorem claim_C9_amended (g : Mesh.Game) (hIdx : g.Index = 0 ∨ g.Index = 1)
    (hp : g.Pause = false) (he : g.TPG ≤ g.Elapsed) :
    (∀ p d, p < g.Vertices.size → (Mesh.ClearVertices g).Vertices.get p d = Vtx.zero) ∧
    (∀ p d, p < g.Vertices.size →
      4 * AliveCount (Mesh.gridData g g.Index) g.Width g.Height ≤ p →
      (Mesh.UpdateCells g).Vertices.get p d = Vtx.zero) := by
  have hclr : ∀ p d, p < g.Vertices.size →
      (Mesh.ClearVertices g).Vertices.get p d = Vtx.zero := by
    intro p d hps
    show (Mesh.clearLoop g.Vertices.size 0 g.Vertices).get p d = Vtx.zero
    rw [Mesh.clearLoop_get, if_pos (by omega)]
  refine ⟨hclr, ?_⟩
  intro p d hps hpa
  set D : GridData := lifePass (Mesh.gridData g g.Index) g.Width g.Height
      (Mesh.gridData g (g.Index ^^^ 1)) with hD
  set g2 : Mesh.Game := Mesh.setGridData (Mesh.ClearVertices g) (g.Index ^^^ 1) D with hg2
  have hVup : (Mesh.UpdateCells g).Vertices = (Mesh.UpdateTriangles g2).Vertices := by
    unfold Mesh.UpdateCells
    rw [hp]
    rw [if_neg (by simp), if_neg (by omega)]
    rfl
  have hVg2 : g2.Vertices = (Mesh.ClearVertices g).Vertices := by
    rw [hg2]
    unfold Mesh.setGridData
    split <;> rfl
  have hgd : Mesh.gridData g2 g2.Index = Mesh.gridData g g.Index := by
    have hIg2 : g2.Index = g.Index := by
      rw [hg2]
      exact Mesh.setGridData_Index _ _ _
    rw [hIg2, hg2]
    have h1 := Mesh.gridData_set_xor (Mesh.ClearVertices g) g.Index D hIdx
    rw [h1]
    rfl
  have hdims : g2.Width = g.Width ∧ g2.Height = g.Height := by
    rw [hg2]
    unfold Mesh.setGridData
    constructor <;> split <;> rfl
  obtain ⟨-, ⟨LV, hLVeq, hLVb⟩⟩ :=
    Mesh.triRows_writes g2 g2.Height 0 ⟨g2.Vertices, g2.Indices, 0, 0, 0⟩
  have hidxfin := Mesh.triRows_idx g2 g2.Height 0 ⟨g2.Vertices, g2.Indices, 0, 0, 0⟩
  have hAC : aliveRowsCnt (Mesh.gridData g2 g2.Index) g2.Width 0 g2.Height
      = AliveCount (Mesh.gridData g g.Index) g.Width g.Height := by
    rw [hgd, hdims.1, hdims.2]
    rfl
  rw [hVup]
  show (lookupW (Mesh.UpdateTriangles g2).Vertices.writes p).getD d = Vtx.zero
  have hwr : (Mesh.UpdateTriangles g2).Vertices.writes
      = (Mesh.triRows g2 g2.Height 0 ⟨g2.Vertices, g2.Indices, 0, 0, 0⟩).V.writes := rfl
  rw [hwr, hLVeq, lookupW_append _ _ _ (lookupW_eq_none _ _ (fun e he => by
    have hb := hLVb e he
    rw [hidxfin] at hb
    simp only [hAC] at hb
    simp at hb
    omega))]
  have : (lookupW g2.Vertices.writes p).getD d = g2.Vertices.get p d := rfl
  rw [this, hVg2]
  exact hclr p d hps

theorem claim_C9_amended_witness :
    (Mesh.ClearVertices wgm).Vertices.get 10 Vtx.zero = Vtx.zero ∧
    (Mesh.UpdateCells wgm).Vertices.get 63 Vtx.zero = Vtx.zero := by
  have h := claim_C9_amended wgm (Or.inl rfl) rfl (by decide)
  exact ⟨h.1 10 Vtx.zero (by decide), h.2 63 Vtx.zero (by decide) (by decide)⟩

/-- A 2×1 mesh game: cell 0 dead, cell 1 alive. -/
def cex9 : Mesh.Game :=
  { Width := 2, Height := 1, Cellsize := 4, Density := 5
    ScreenWidth := 8, ScreenHeight := 4
    GridA := [[0, 1]], GridB := [[0, 0]]
    Index := 0, Black := ⟨0, 0, 0, 255⟩, White := ⟨200, 200, 200, 255⟩
    Grey := ⟨128, 128, 128, 255⟩
    Elapsed := 0, TPG := 0
    Vertices := ⟨32, []⟩, Indices := ⟨48, []⟩
    Pause := false, Debug := false }

/-- C9 as stated is false in its dead-cell consequence: on `cex9` the dead
cell 0 reserves index slots referencing vertex 0, but after the advancing
`UpdateCells` vertex 0 holds a corner of the alive cell 1 (the vertex
cursor only advances for alive cells, so cell 1's corners land at
positions 0–3), not zero-initialized data. -/
theorem claim_C9_cex :
    cellAt (Mesh.gridData cex9 cex9.Index) 0 0 = 0 ∧
    (Mesh.UpdateCells cex9).Indices.get 0 0 = 0 ∧
    ¬ ((Mesh.UpdateCells cex9).Vertices.get 0 Vtx.zero = Vtx.zero) ∧
    ((Mesh.UpdateCells cex9).Vertices.get 0 Vtx.zero).DstX = 5 := by
  decide

/-! ## C10: every per-frame array access stays in bounds under the shipped
configurations -/

theorem wrap_toNat_lt (a b : Nat) (dd : Int) (hdd : dd ∈ offs) (ha : a < b) :
    (((a : Int) + dd + b).tmod b).toNat < b := by
  have hb : 0 < b := by omega
  simp only [offs, List.mem_cons, List.not_mem_nil, or_false] at hdd
  rcases hdd with rfl | rfl | rfl
  · rw [tmod_wrap_neg a b hb]
    exact Nat.mod_lt _ hb
  · rw [tmod_wrap_zero a b ha]
    exact ha
  · rw [tmod_wrap_pos a b hb]
    exact Nat.mod_lt _ hb

/-- C10.  Under the shipped configurations (mesh: 200×200 grid with the
buffers `Init` allocates for `Cellsize = 4`; raster: 500×500 grid,
2000×2000 screen, 16000000-byte pixel buffer), every per-frame array
access is in bounds: the wrapped `CountNeighbors` indices stay inside the
grid, every index write of `UpdateTriangles` lands below the index-buffer
size and every vertex write below the vertex-buffer size, and every byte
write of `UpdatePixels` lands below the pixel-buffer size with the owning
cell lookup inside the grid. -/
theorem claim_C10 (gm : Mesh.Game) (gr : Raster.Game)
    (hmW : gm.Width = 200) (hmH : gm.Height = 200)
    (hmV : gm.Vertices.size = 640000) (hmI : gm.Indices.size = 960000)
    (hrW : gr.Width = 500) (hrH : gr.Height = 500) (hrC : gr.Cellsize = 4)
    (hrSW : gr.ScreenWidth = 2000) (hrSH : gr.ScreenHeight = 2000)
    (hrP : gr.Pixels.size = 16000000) :
    (∀ x y : Nat, x < gm.Width → y < gm.Height → ∀ dx ∈ offs, ∀ dy ∈ offs,
      (((x : Int) + dx + gm.Width).tmod gm.Width).toNat < gm.Width ∧
      (((y : Int) + dy + gm.Height).tmod gm.Height).toNat < gm.Height) ∧
    (∀ x y : Nat, x < gr.Width → y < gr.Height → ∀ dx ∈ offs, ∀ dy ∈ offs,
      (((x : Int) + dx + gr.Width).tmod gr.Width).toNat < gr.Width ∧
      (((y : Int) + dy + gr.Height).tmod gr.Height).toNat < gr.Height) ∧
    (∃ LI, (Mesh.UpdateTriangles gm).Indices.writes = LI ++ gm.Indices.writes ∧
      ∀ e ∈ LI, e.1 < gm.Indices.size) ∧
    (∃ LV, (Mesh.UpdateTriangles gm).Vertices.writes = LV ++ gm.Vertices.writes ∧
      ∀ e ∈ LV, e.1 < gm.Vertices.size) ∧
    (∃ LP, (Raster.UpdatePixels gr).Pixels.writes = LP ++ gr.Pixels.writes ∧
      ∀ e ∈ LP, e.1 < gr.Pixels.size) ∧
    (∀ x y : Nat, x < gr.ScreenWidth → y < gr.ScreenHeight →
      x / gr.Cellsize < gr.Width ∧ y / gr.Cellsize < gr.Height) := by
  obtain ⟨⟨LI, hLIeq, hLIb⟩, ⟨LV, hLVeq, hLVb⟩⟩ :=
    Mesh.triRows_writes gm gm.Height 0 ⟨gm.Vertices, gm.Indices, 0, 0, 0⟩
  have hidxfin := Mesh.triRows_idx gm gm.Height 0 ⟨gm.Vertices, gm.Indices, 0, 0, 0⟩
  have hcnt := aliveRowsCnt_le (Mesh.gridData gm gm.Index) gm.Width gm.Height 0
  obtain ⟨LP, hLPeq, hLPb⟩ :=
    Raster.pixRows_writes gr.ScreenWidth gr.ScreenHeight 0 gr rfl
  refine ⟨?_, ?_, ?_, ?_, ?_, ?_⟩
  · intro x y hx hy dx hdx dy hdy
    exact ⟨wrap_toNat_lt x gm.Width dx hdx hx, wrap_toNat_lt y gm.Height dy hdy hy⟩
  · intro x y hx hy dx hdx dy hdy
    exact ⟨wrap_toNat_lt x gr.Width dx hdx hx, wrap_toNat_lt y gr.Height dy hdy hy⟩
  · refine ⟨LI, hLIeq, ?_⟩
    intro e he
    have := hLIb e he
    omega
  · refine ⟨LV, hLVeq, ?_⟩
    intro e he
    have hb := hLVb e he
    rw [hidxfin] at hb
    simp only [hmW, hmH] at hb hcnt
    simp at hb
    omega
  · refine ⟨LP, hLPeq, ?_⟩
    intro e he
    have hb := hLPb e he
    rw [hrSW, hrSH] at hb
    omega
  · intro x y hx hy
    rw [hrSW] at hx
    rw [hrSH] at hy
    rw [hrC, hrW, hrH]
    omega

theorem claim_C10_witness :
    (Mesh.Init shippedMeshCfg (fun _ _ => 0)).Vertices.size = 640000 ∧
    (Raster.Init shippedRasterCfg (fun _ _ => 0)).Pixels.size = 16000000 ∧
    ((((0 : Nat) : Int) + -1
        + (Mesh.Init shippedMeshCfg (fun _ _ => 0)).Width).tmod
          (Mesh.Init shippedMeshCfg (fun _ _ => 0)).Width).toNat
      < (Mesh.Init shippedMeshCfg (fun _ _ => 0)).Width ∧
    1999 / (Raster.Init shippedRasterCfg (fun _ _ => 0)).Cellsize
      < (Raster.Init shippedRasterCfg (fun _ _ => 0)).Width := by
  have h := claim_C10 (Mesh.Init shippedMeshCfg (fun _ _ => 0))
    (Raster.Init shippedRasterCfg (fun _ _ => 0))
    rfl rfl rfl rfl rfl rfl rfl rfl rfl rfl
  refine ⟨rfl, rfl, ?_, ?_⟩
  · exact (h.1 0 0 (by decide) (by decide) (-1) (by decide) (-1) (by decide)).1
  · exact (h.2.2.2.2.2 1999 0 (by decide) (by decide)).1
